import Mathlib

/-!
Verification of the doc-processor core: a shallow embedding, in Lean 4, of the
extraction-and-analysis pipeline (document_extractor.py, image_utils.py,
symbol_utils.py, document_analyzer.py).

Modelling conventions:
* Pure Python code is translated into computable Lean definitions, keeping the
  source structure (folds mirror loops, Except mirrors raised exceptions,
  Option fields mirror optionally-present dict keys).
* External libraries (PyPDF2, pdfminer, python-docx, textract, fitz, spaCy,
  transformers, the NLTK tokenizers and lemmatizer, sklearn's TfidfVectorizer,
  the filesystem) are modelled as oracle parameters: functions supplied in an
  environment record, returning `Except String _` where the library call can
  raise.  The repository's own control flow around those calls is embedded
  exactly.
* Python floats are modelled as exact rationals; `round(x, n)` is modelled as
  round-half-to-even on the rational value.
-/

namespace DocProc

/-! ## Generic helpers -/

/-- Python whitespace characters recognised by `str.strip()` / `str.split()`. -/
def isPyWs (c : Char) : Bool :=
  c = ' ' || c = '\t' || c = '\n' || c = '\r' || c = '\x0b' || c = '\x0c'

/-- `str.strip()` on a character list. -/
def stripChars (l : List Char) : List Char :=
  ((l.dropWhile isPyWs).reverse.dropWhile isPyWs).reverse

/-- `str.strip()`. -/
def pyStrip (s : String) : String :=
  String.mk (stripChars s.data)

/-! ## Syllable estimator: `DocumentAnalyzer._count_syllables` -/

/-- The vowel set `'aeiouy'` used by `_count_syllables`. -/
def isVowel (c : Char) : Bool :=
  c = 'a' || c = 'e' || c = 'i' || c = 'o' || c = 'u' || c = 'y'

/-- `re.sub(r'[^a-zA-Z]', '', word.lower())`: lowercase, then keep ASCII letters. -/
def cleanWord (w : String) : List Char :=
  (w.data.map Char.toLower).filter (fun c => decide ('a' ≤ c) && decide (c ≤ 'z'))

/-- The closed set of special-cased single-syllable words. -/
def specialSyllableWords : List String :=
  ["the", "me", "she", "he", "be", "we"]

/-- `word.endswith('e')`. -/
def endsInE (w : List Char) : Bool :=
  match w.reverse with
  | 'e' :: _ => true
  | _ => false

/-- `word.endswith('le') and len(word) > 2 and word[-3] not in vowels`. -/
def endsInLe (w : List Char) : Bool :=
  match w.reverse with
  | 'e' :: 'l' :: c :: _ => ! isVowel c
  | _ => false

/-- The vowel-group counting loop of `_count_syllables`: a running
`prev_is_vowel` flag, incrementing on each non-vowel-to-vowel transition. -/
def vowelGroupLoop (w : List Char) (prev : Bool) (acc : Nat) : Nat :=
  match w with
  | [] => acc
  | c :: rest =>
    let iv := isVowel c
    vowelGroupLoop rest iv (if iv && ! prev then acc + 1 else acc)

/-- `DocumentAnalyzer._count_syllables` (document_analyzer.py:478-520). -/
def count_syllables (word : String) : Nat :=
  let w := cleanWord word
  if w = [] then 0
  else if String.mk w ∈ specialSyllableWords then 1
  else
    let c0 : Int := vowelGroupLoop w false 0
    let c1 : Int := if endsInE w then c0 - 1 else c0
    let c2 : Int := if endsInLe w then c1 + 1 else c1
    (max c2 1).toNat

/-- Spec-side formulation of the vowel-group count: pair every character with
the previous character's vowel-ness (`false` for the first character) and count
positions where a vowel follows a non-vowel. -/
def specVowelGroups (w : List Char) : Nat :=
  (w.zip (false :: w.map isVowel)).countP (fun p => isVowel p.1 && ! p.2)

/-- Modelled from the spec's words (spec.md section 4.4, syllable estimator):
closed set returns 1; otherwise count transitions into vowel groups, subtract 1
for a trailing "e", add 1 back for a trailing "le" preceded by a non-vowel in a
word of three or more characters, and clamp to a minimum of 1. -/
def specCountSyllables (w : List Char) : Nat :=
  if String.mk w ∈ specialSyllableWords then 1
  else
    let base : Int := specVowelGroups w
    let adjE : Int := if endsInE w then base - 1 else base
    let adjLe : Int := if endsInLe w then adjE + 1 else adjE
    (max adjLe 1).toNat

/-! ## Python `sorted(..., reverse=True)` and `round(x, n)` models -/

/-- Stable insertion (a later element goes after existing elements with an
equal or larger key), modelling the stability of Python's `sorted` with
`reverse=True`. -/
def insertDescBy {α : Type} (key : α → ℚ) (x : α) : List α → List α
  | [] => [x]
  | y :: ys => if key x ≤ key y then y :: insertDescBy key x ys else x :: y :: ys

/-- `sorted(l, key=key, reverse=True)`: stable descending sort by a rational key. -/
def sortedDescBy {α : Type} (key : α → ℚ) (l : List α) : List α :=
  l.foldl (fun acc x => insertDescBy key x acc) []

/-- Round-half-to-even to an integer (the tie-breaking rule of Python's
`round`), on exact rationals. -/
def roundHalfEven (q : ℚ) : ℤ :=
  let f := ⌊q⌋
  let frac := q - f
  if frac < 1 / 2 then f
  else if 1 / 2 < frac then f + 1
  else if Even f then f else f + 1

/-- `round(q, ndigits)` modelled on exact rationals. -/
def pyRound (ndigits : ℕ) (q : ℚ) : ℚ :=
  (roundHalfEven (q * 10 ^ ndigits) : ℚ) / 10 ^ ndigits

/-! ## Readability: `DocumentAnalyzer.calculate_readability`

The NLTK tokenizers are external: `calculate_readability` is embedded as a
function of the `sent_tokenize` and `word_tokenize` outputs for the input
text.  Letters are modelled as ASCII letters. -/

/-- `any(c.isalpha() for c in word)`. -/
def hasAlpha (w : String) : Bool :=
  w.data.any Char.isAlpha

/-- `word.lower()` (ASCII model). -/
def pyLower (w : String) : String :=
  String.mk (w.data.map Char.toLower)

/-- Per-word syllable count as used by `calculate_readability`
(`word = word.lower(); syllables = self._count_syllables(word)`). -/
def wordSyllables (w : String) : ℕ :=
  count_syllables (pyLower w)

/-- `DocumentAnalyzer.calculate_readability` (document_analyzer.py:416-476),
as a function of the tokenizer outputs; the result models the returned dict
as an ordered key/value list. -/
def calculate_readability (sentences tokens : List String) : List (String × ℚ) :=
  let words := tokens.filter hasAlpha
  if words = [] ∨ sentences = [] then
    [("flesch_reading_ease", 0), ("flesch_kincaid_grade", 0),
     ("complex_word_ratio", 0)]
  else
    let word_count : ℕ := words.length
    let sentence_count : ℕ := sentences.length
    let syllable_count : ℕ := (words.map wordSyllables).sum
    let complex_words : ℕ := words.countP (fun w => 3 ≤ wordSyllables w)
    let flesch_reading_ease : ℚ :=
      if sentence_count = 0 ∨ word_count = 0 then 0
      else 206.835 - 1.015 * ((word_count : ℚ) / sentence_count)
             - 84.6 * ((syllable_count : ℚ) / word_count)
    let flesch_kincaid_grade : ℚ :=
      if sentence_count = 0 ∨ word_count = 0 then 0
      else 0.39 * ((word_count : ℚ) / sentence_count)
             + 11.8 * ((syllable_count : ℚ) / word_count) - 15.59
    let complex_word_ratio : ℚ :=
      if 0 < word_count then (complex_words : ℚ) / word_count else 0
    [("flesch_reading_ease", pyRound 2 flesch_reading_ease),
     ("flesch_kincaid_grade", pyRound 2 flesch_kincaid_grade),
     ("complex_word_ratio", pyRound 3 complex_word_ratio),
     ("avg_words_per_sentence",
       if 0 < sentence_count then pyRound 2 ((word_count : ℚ) / sentence_count) else 0),
     ("avg_syllables_per_word",
       if 0 < word_count then pyRound 2 ((syllable_count : ℚ) / word_count) else 0)]

/-- The all-zero five-metric result that the claim asserts for zero-count
input (all five metrics of the readability section, each 0). -/
def allZeroReadability : List (String × ℚ) :=
  [("flesch_reading_ease", 0), ("flesch_kincaid_grade", 0),
   ("complex_word_ratio", 0), ("avg_words_per_sentence", 0),
   ("avg_syllables_per_word", 0)]

/-! ## Sentiment aggregation: `DocumentAnalyzer.analyze_sentiment`

The transformers sentiment pipeline is external; the aggregation of its
per-chunk results (document_analyzer.py:380-411) is embedded over an arbitrary
list of (label, confidence) chunk classifications. -/

/-- The sentiment section of an AnalysisResult; the ratio keys are absent in
the zero-chunk result. -/
structure SentimentResult where
  label : String
  score : ℚ
  positive_ratio : Option ℚ
  negative_ratio : Option ℚ
  deriving DecidableEq, Repr

/-- The aggregation step of `DocumentAnalyzer.analyze_sentiment`
(document_analyzer.py:380-411), over the per-chunk classifier outputs. -/
def aggregate_sentiment (results : List (String × ℚ)) : SentimentResult :=
  if results = [] then
    { label := "NEUTRAL", score := 1 / 2, positive_ratio := none, negative_ratio := none }
  else
    let positive_score := ((results.filter (fun r => r.1 = "POSITIVE")).map Prod.snd).sum
    let negative_score := ((results.filter (fun r => r.1 = "NEGATIVE")).map Prod.snd).sum
    let positive_count := (results.filter (fun r => r.1 = "POSITIVE")).length
    let negative_count := (results.filter (fun r => r.1 = "NEGATIVE")).length
    let n : ℚ := results.length
    let ls : String × ℚ :=
      if negative_count < positive_count then ("POSITIVE", positive_score / n)
      else if positive_count < negative_count then ("NEGATIVE", negative_score / n)
      else if negative_score ≤ positive_score then ("POSITIVE", positive_score / n)
      else ("NEGATIVE", negative_score / n)
    { label := ls.1, score := ls.2,
      positive_ratio := some ((positive_count : ℚ) / n),
      negative_ratio := some ((negative_count : ℚ) / n) }

/-- Spec-side summed confidence of one class: sum over all chunks of the
confidence when the chunk voted for that class, 0 otherwise. -/
def classSum (lab : String) (results : List (String × ℚ)) : ℚ :=
  (results.map (fun r => if r.1 = lab then r.2 else 0)).sum

/-! ## Summarization: `DocumentAnalyzer.summarize` / `_extractive_summarize`

The NLTK tokenizers and stopword list are oracles in a `TokEnv`; the
transformers summarization model is an oracle in a `SummEnv`. -/

/-- `str.split()` (no argument): split on runs of whitespace, dropping empties. -/
def pySplitAux : List Char → List Char → List (List Char)
  | [], cur => if cur = [] then [] else [cur.reverse]
  | c :: cs, cur =>
    if isPyWs c then
      if cur = [] then pySplitAux cs [] else cur.reverse :: pySplitAux cs []
    else pySplitAux cs (c :: cur)

/-- `text.split()`. -/
def pySplit (s : String) : List String :=
  (pySplitAux s.data []).map String.mk

/-- `token.isalnum()` (ASCII model: nonempty and all alphanumeric). -/
def pyIsAlnum (w : String) : Bool :=
  ! w.data.isEmpty && w.data.all Char.isAlphanum

/-- Oracles for the NLTK tokenizers and stopword set used by the analyzer. -/
structure TokEnv where
  sentTok : String → List String
  wordTok : String → List String
  isStop : String → Bool

/-- Ascending insertion for `list.sort()` on indices. -/
def insertAscN (x : ℕ) : List ℕ → List ℕ
  | [] => [x]
  | y :: ys => if y ≤ x then y :: insertAscN x ys else x :: y :: ys

/-- `list.sort()` on indices. -/
def sortedAscN (l : List ℕ) : List ℕ :=
  l.foldl (fun acc x => insertAscN x acc) []

/-- The content words of the document: for each sentence, the lowercased
tokens that are non-stopword and alphanumeric, concatenated (the multiset
underlying `word_frequencies`). -/
def contentWords (env : TokEnv) (sentences : List String) : List String :=
  (sentences.map (fun s =>
    (env.wordTok (pyLower s)).filter (fun w => ! env.isStop w && pyIsAlnum w))).join

/-- `DocumentAnalyzer._extractive_summarize` (document_analyzer.py:247-296).
The `word_frequencies` dict is modelled by occurrence counts over
`contentWords`; a sentence obtains a score entry only via its first token that
is a key of `word_frequencies`, so sentences with no such token are absent
from `sentence_scores`. -/
def extractive_summarize (env : TokEnv) (text : String) (sentences_count : ℕ) :
    String :=
  let sentences := env.sentTok text
  if sentences.length ≤ sentences_count then text
  else
    let allWords := contentWords env sentences
    let maxFreq : ℕ :=
      if allWords = [] then 1
      else (allWords.map (fun w => allWords.count w)).foldr Nat.max 0
    let normFreq : String → ℚ := fun w => (allWords.count w : ℚ) / maxFreq
    let sentence_scores : List (ℕ × ℚ) :=
      (List.range sentences.length).filterMap (fun i =>
        let hits := (env.wordTok (pyLower (sentences.getD i ""))).filter
          (fun w => allWords.contains w)
        if hits = [] then none else some (i, (hits.map normFreq).sum))
    let ranked := sortedDescBy Prod.snd sentence_scores
    let top := (ranked.take sentences_count).map Prod.fst
    String.intercalate " " ((sortedAscN top).map (fun i => sentences.getD i ""))

/-- Modelled from the claim's words: score EVERY sentence (a sentence with no
content words scores 0), rank all sentences by score, pick the top
`sentences_count`, re-order by original position, join with single spaces. -/
def claimedExtractive (env : TokEnv) (text : String) (sentences_count : ℕ) :
    String :=
  let sentences := env.sentTok text
  if sentences.length ≤ sentences_count then text
  else
    let allWords := contentWords env sentences
    let maxFreq : ℕ :=
      if allWords = [] then 1
      else (allWords.map (fun w => allWords.count w)).foldr Nat.max 0
    let normFreq : String → ℚ := fun w => (allWords.count w : ℚ) / maxFreq
    let sentence_scores : List (ℕ × ℚ) :=
      (List.range sentences.length).map (fun i =>
        (i, (((env.wordTok (pyLower (sentences.getD i ""))).filter
          (fun w => allWords.contains w)).map normFreq).sum))
    let ranked := sortedDescBy Prod.snd sentence_scores
    let top := (ranked.take sentences_count).map Prod.fst
    String.intercalate " " ((sortedAscN top).map (fun i => sentences.getD i ""))

/-- The transformers summarization pipeline as an oracle: `load` is the lazy
`_load_summarizer` step (model download/initialisation can raise), `run` is
the `self.summarizer(...)` call with the fixed decoding arguments. -/
structure SummEnv where
  load : Except String Unit
  run : String → Except String String

/-- `DocumentAnalyzer.summarize` (document_analyzer.py:214-245).  Note that
the truncation to 1024 words happens inside the `try`, after the model load,
so a failing `run` falls back to extractive summarization of the truncated
text, while a failing `load` falls back on the original text. -/
def summarize (env : TokEnv) (senv : SummEnv) (text : String)
    (max_length min_length : ℕ) : String :=
  if (pySplit text).length < min_length then text
  else
    match senv.load with
    | .error _ => extractive_summarize env text 3
    | .ok _ =>
      let words := pySplit text
      let text2 :=
        if 1024 < words.length then String.intercalate " " (words.take 1024)
        else text
      match senv.run text2 with
      | .ok s => s
      | .error _ => extractive_summarize env text2 3

/-- A concrete tokenizer environment with four sentences, of which the middle
two contain no alphanumeric content words. -/
def c6Env : TokEnv :=
  { sentTok := fun _ => ["Cats sleep.", "Mm.", "Hm.", "Dogs run."],
    wordTok := fun s =>
      if s = "cats sleep." then ["cats", "sleep", "."]
      else if s = "dogs run." then ["dogs", "run", "."]
      else ["."],
    isStop := fun _ => false }

/-- Spec-side sentence scores: every sentence containing at least one
occurrence of a content word is paired with the sum, over its tokens that are
content words, of the token's normalized frequency. -/
def scoredSentences (env : TokEnv) (text : String) : List (ℕ × ℚ) :=
  let sentences := env.sentTok text
  let allWords := contentWords env sentences
  let maxFreq : ℕ :=
    if allWords = [] then 1
    else (allWords.map (fun w => allWords.count w)).foldr Nat.max 0
  ((List.range sentences.length).filter (fun i =>
      (env.wordTok (pyLower (sentences.getD i ""))).any
        (fun w => allWords.contains w))).map
    (fun i => (i, (((env.wordTok (pyLower (sentences.getD i ""))).filter
        (fun w => allWords.contains w)).map
          (fun w => (allWords.count w : ℚ) / maxFreq)).sum))

/-! ## Keyword extraction: `DocumentAnalyzer.extract_keywords`

The NLTK tokenizers/lemmatizer/stopwords and sklearn's TfidfVectorizer are
oracles: a `KwEnv` carries their outputs for one input text.  The repository's
own accumulation, normalization and ranking logic
(document_analyzer.py:133-189) is embedded exactly. -/

/-- Oracle outputs for one `extract_keywords` call: the document-level
tokenization of `text.lower()`, the per-sentence tokenizations, the stopword
set, the lemmatizer, the vectorizer vocabulary, and the TF-IDF matrix entry
for (sentence index, vocabulary term). -/
structure KwEnv where
  docTokens : List String
  sentTokens : List (List String)
  isStop : String → Bool
  lemmatize : String → String
  features : List String
  tfidf : ℕ → String → ℚ

/-- Python's `set(...)` iteration modelled as first-occurrence deduplication
(the per-lemma sums do not depend on the iteration order). -/
def dedupFirst : List String → List String
  | [] => []
  | x :: xs => x :: (dedupFirst xs).filter (fun y => y ≠ x)

/-- Dict update `d[k] = d.get(k, 0) + v`, preserving insertion order. -/
def upsert (k : String) (v : ℚ) : List (String × ℚ) → List (String × ℚ)
  | [] => [(k, v)]
  | (k0, v0) :: rest =>
    if k0 = k then (k0, v0 + v) :: rest else (k0, v0) :: upsert k v rest

/-- The `tfidf_scores` accumulation loop (document_analyzer.py:162-178):
for each sentence, for each distinct alphanumeric token that is not a
stopword, if its lemma is in the vectorizer vocabulary, add that sentence's
TF-IDF weight of the lemma to the lemma's running score. -/
def tfidfScores (env : KwEnv) : List (String × ℚ) :=
  (List.range env.sentTokens.length).foldl (fun acc i =>
    (dedupFirst ((env.sentTokens.getD i []).filter pyIsAlnum)).foldl
      (fun acc2 token =>
        if env.isStop token then acc2
        else
          let lem := env.lemmatize token
          if lem ∈ env.features then upsert lem (env.tfidf i lem) acc2
          else acc2) acc) []

/-- The document's lemma multiset underlying `freq_dist`
(document_analyzer.py:144-151). -/
def freqLemmas (env : KwEnv) : List String :=
  ((env.docTokens.filter pyIsAlnum).filter (fun t => ! env.isStop t)).map
    env.lemmatize

/-- `DocumentAnalyzer.extract_keywords` (document_analyzer.py:133-189): the
accumulated per-lemma TF-IDF sums, multiplied by the lemma's raw frequency
when the lemma occurs in `freq_dist`, sorted descending, truncated to
`top_n`. -/
def extract_keywords (env : KwEnv) (top_n : ℕ) : List (String × ℚ) :=
  let lemmas := freqLemmas env
  let scored := (tfidfScores env).map (fun kv =>
    if lemmas.count kv.1 ≠ 0 then (kv.1, kv.2 * (lemmas.count kv.1 : ℚ))
    else kv)
  (sortedDescBy Prod.snd scored).take top_n

/-- Modelled from the claim's words: a lemma's score is its raw frequency
count times the sum of its TF-IDF weight across every sentence containing it
(each containing sentence counted once). -/
def claimedKeywordScore (env : KwEnv) (k : String) : ℚ :=
  ((freqLemmas env).count k : ℚ) *
    (((List.range env.sentTokens.length).filter (fun i =>
        ((env.sentTokens.getD i []).filter pyIsAlnum).any
          (fun t => ! env.isStop t && env.lemmatize t = k))).map
      (fun i => env.tfidf i k)).sum

/-- A document of one sentence, tokenized as "cats cat sleep .", where both
"cats" and "cat" lemmatize to "cat". -/
def kwDemoEnv : KwEnv :=
  { docTokens := ["cats", "cat", "sleep", "."],
    sentTokens := [["cats", "cat", "sleep", "."]],
    isStop := fun _ => false,
    lemmatize := fun t => if t = "cats" then "cat" else t,
    features := ["cat", "cats", "sleep"],
    tfidf := fun _ w =>
      if w = "cat" then 1 / 2
      else if w = "cats" then 1 / 2
      else if w = "sleep" then 1 / 2 else 0 }

/-- The total score a key holds in an association list (its value when keys
are unique, 0 when absent). -/
def lookupScore (k : String) (l : List (String × ℚ)) : ℚ :=
  ((l.filter (fun kv => kv.1 = k)).map Prod.snd).sum

/-- C4 amended per-lemma raw score: the sum over sentences of (number of
distinct alphanumeric non-stopword surface tokens of the sentence whose lemma
is `k`, provided `k` is in the vectorizer vocabulary) times the sentence's
TF-IDF weight of `k`. -/
def amendedRawScore (env : KwEnv) (k : String) : ℚ :=
  ((List.range env.sentTokens.length).map (fun i =>
    ((dedupFirst ((env.sentTokens.getD i []).filter pyIsAlnum)).countP
        (fun t => ! env.isStop t && env.lemmatize t = k &&
          decide (k ∈ env.features)) : ℚ) * env.tfidf i k)).sum

/-- C4 amended final score: the raw score times the lemma's raw frequency
count when that count is nonzero. -/
def amendedProduct (env : KwEnv) (k : String) : ℚ :=
  if (freqLemmas env).count k ≠ 0 then
    amendedRawScore env k * ((freqLemmas env).count k : ℚ)
  else amendedRawScore env k

/-! ## Math expressions: `symbol_utils.extract_math_expressions`

The three regex patterns (`\$.*?\$`, `\\\(.*?\\\)`, `\\\[.*?\\\]`, all with
`re.DOTALL`) are embedded as left-to-right scanners with the semantics of
`re.finditer` for these patterns: find the next opening delimiter, then the
nearest closing delimiter (lazy `.*?`, newlines included by DOTALL), emit the
match, continue after it.  A match's `content` is `m.group(0)`, i.e. the
substring of the text between the match offsets. -/

/-- The substring of `l` at `[a, b)`. -/
def slice (l : List Char) (a b : ℕ) : List Char :=
  (l.drop a).take (b - a)

/-- `re.finditer(r'\$.*?\$', text, re.DOTALL)` as offset pairs: scan for a
`$`, then the next `$`, emit `(open, close+1)`, continue after the close. -/
def scanDollar : List Char → ℕ → Option ℕ → List (ℕ × ℕ)
  | [], _, _ => []
  | ch :: cs, pos, none =>
    if ch = '$' then scanDollar cs (pos + 1) (some pos)
    else scanDollar cs (pos + 1) none
  | ch :: cs, pos, some st =>
    if ch = '$' then (st, pos + 1) :: scanDollar cs (pos + 1) none
    else scanDollar cs (pos + 1) (some st)

/-- `re.finditer` for a two-character delimiter pattern (open pair `a b`,
close pair `c d`, lazy body): scan adjacent pairs left to right. -/
def scanPair (a b c d : Char) : List Char → ℕ → Option ℕ → List (ℕ × ℕ)
  | [], _, _ => []
  | [_], _, _ => []
  | x :: y :: rest, pos, none =>
    if x = a ∧ y = b then scanPair a b c d rest (pos + 2) (some pos)
    else scanPair a b c d (y :: rest) (pos + 1) none
  | x :: y :: rest, pos, some st =>
    if x = c ∧ y = d then (st, pos + 2) :: scanPair a b c d rest (pos + 2) none
    else scanPair a b c d (y :: rest) (pos + 1) (some st)

/-- One extracted math expression: the matched substring and its character
offsets (`meta.start`, `meta.end`). -/
structure MathSample where
  content : String
  start : ℕ
  stop : ℕ
  deriving DecidableEq, Repr

/-- `symbol_utils.extract_math_expressions` (symbol_utils.py:33-54): the three
patterns applied independently, in order, each match contributing one sample
with `m.group(0)` and its offsets. -/
def extract_math_expressions (text : String) : List MathSample :=
  ((scanDollar text.data 0 none).map (fun m =>
      { content := String.mk (slice text.data m.1 m.2), start := m.1, stop := m.2 }))
    ++ ((scanPair '\\' '(' '\\' ')' text.data 0 none).map (fun m =>
      { content := String.mk (slice text.data m.1 m.2), start := m.1, stop := m.2 }))
    ++ ((scanPair '\\' '[' '\\' ']' text.data 0 none).map (fun m =>
      { content := String.mk (slice text.data m.1 m.2), start := m.1, stop := m.2 }))

/-! ## Extraction engine: `DocumentExtractor` (document_extractor.py) and the
image pipeline (image_utils.py)

The filesystem and the parsing libraries (PyPDF2, pdfminer, python-docx,
textract, fitz/PyMuPDF, pytesseract, imagehash) are oracles in an
`ExtractEnv`; an oracle returns `Except String _` where the library call can
raise.  The extractor's own control flow — dispatch, fallback chains,
try/except conversion to error results — is embedded exactly. -/

/-- `text.split(sep)` for a single-character separator (keeps empty parts). -/
def pySplitCharAux (sep : Char) : List Char → List Char → List (List Char)
  | [], cur => [cur.reverse]
  | c :: cs, cur =>
    if c = sep then cur.reverse :: pySplitCharAux sep cs []
    else pySplitCharAux sep cs (c :: cur)

/-- `text.split(sep)` for a single-character separator. -/
def pySplitChar (sep : Char) (s : String) : List String :=
  (pySplitCharAux sep s.data []).map String.mk

/-- What PyPDF2 hands back for one file: the metadata object (none when
`reader.metadata` is None; otherwise the five `.get(...)` values
title/author/subject/creator/producer) and `extract_text()` per page. -/
structure PdfData where
  meta : Option (String × String × String × String × String)
  pages : List String
  deriving DecidableEq, Repr

/-- What python-docx hands back: core properties (None modelled as `none`,
timestamps already rendered with `str(...)`), paragraph texts in document
order, and table cell texts (tables → rows → cells). -/
structure DocxData where
  title : Option String
  author : Option String
  subject : Option String
  created : Option String
  modified : Option String
  paragraphs : List String
  tables : List (List (List String))
  deriving DecidableEq, Repr

/-- A relationship of the DOCX package, as exposed by `doc.part.rels`:
relationship id, target reference, image payload (base64) and content type. -/
structure DocxRel where
  relId : String
  targetRef : String
  blob64 : String
  contentType : String
  deriving DecidableEq, Repr

/-- An error from reading a text file: `UnicodeDecodeError` (caught by the
TXT handler) or any other exception (not caught there). -/
inductive TxtErr
  | unicodeDecode
  | other (msg : String)
  deriving DecidableEq, Repr

/-- One extracted image sample (image_utils.py): base64 payload, codec name,
position tag (page+index for PDF, relationship id for DOCX), OCR text and
confidence, perceptual hash. -/
structure ImageSample where
  content : String
  format : String
  page : Option ℕ
  idx : Option ℕ
  relationship_id : Option String
  ocr_text : String
  ocr_confidence : ℚ
  phash : String
  deriving DecidableEq

/-- The oracle environment for extraction: filesystem and library behaviour
per path.  `splitextExt` models `os.path.splitext(·)[1]` (applied by the code
to the lowercased path); `fitzOpen` yields, per page, the raster image
references of that page; `extractImage` models `doc.extract_image` plus
base64-encoding (payload, declared format). -/
structure ExtractEnv where
  pathExists : String → Bool
  splitextExt : String → String
  basename : String → String
  getsize : String → ℕ
  pypdf2 : String → Except String PdfData
  pdfminer : String → Except String String
  docxOpen : String → Except String DocxData
  textract : String → Except String String
  readUtf8 : String → Except TxtErr String
  readLatin1 : String → Except String String
  fitzOpen : String → Except String (List (List ℕ))
  extractImage : ℕ → Except String (String × String)
  ocr : String → String × ℚ
  phash : String → String
  docxRels : String → Except String (List DocxRel)

/-- The extraction result dict: exactly the keys the code can set. -/
structure ExtractionResult where
  text : Option String
  metadata : Option (List (String × String))
  pages : Option (List String)
  paragraphs : Option (List String)
  lines : Option (List String)
  page_count : Option ℕ
  images : Option (List ImageSample)
  error : Option String
  deriving DecidableEq

/-- A result with no keys set. -/
def emptyResult : ExtractionResult :=
  { text := none, metadata := none, pages := none, paragraphs := none,
    lines := none, page_count := none, images := none, error := none }

/-- `DocumentExtractor._extract_from_pdf_with_pypdf2`
(document_extractor.py:80-113). -/
def extract_from_pdf_with_pypdf2 (env : ExtractEnv) (path : String) :
    Except String ExtractionResult := do
  let d ← env.pypdf2 path
  let metadata_dict := match d.meta with
    | some (t, a, s, c, p) =>
      [("title", t), ("author", a), ("subject", s), ("creator", c), ("producer", p)]
    | none => []
  let pages := d.pages.filter (fun t => t ≠ "")
  let full_text := String.join (pages.map (fun t => t ++ "\n\n"))
  .ok { emptyResult with
    text := some (pyStrip full_text),
    metadata := some metadata_dict,
    pages := some pages,
    page_count := some d.pages.length }

/-- `DocumentExtractor._extract_from_pdf_with_pdfminer`
(document_extractor.py:115-128). -/
def extract_from_pdf_with_pdfminer (env : ExtractEnv) (path : String) :
    Except String ExtractionResult := do
  let full_text ← env.pdfminer path
  let pages := ((pySplitChar '\x0c' full_text).map pyStrip).filter (fun p => p ≠ "")
  .ok { emptyResult with
    text := some (pyStrip full_text),
    metadata := some [],
    pages := some pages,
    page_count := some pages.length }

/-- `DocumentExtractor._extract_from_pdf` (document_extractor.py:72-78): the
PyPDF2 strategy, falling back to pdfminer on any exception. -/
def extract_from_pdf (env : ExtractEnv) (path : String) :
    Except String ExtractionResult :=
  match extract_from_pdf_with_pypdf2 env path with
  | .ok r => .ok r
  | .error _ => extract_from_pdf_with_pdfminer env path

/-- `DocumentExtractor._extract_from_docx` (document_extractor.py:130-164). -/
def extract_from_docx (env : ExtractEnv) (path : String) :
    Except String ExtractionResult := do
  let d ← env.docxOpen path
  let metadata :=
    [("title", d.title.getD ""), ("author", d.author.getD ""),
     ("subject", d.subject.getD ""), ("created", d.created.getD ""),
     ("modified", d.modified.getD "")]
  let paragraphs := d.paragraphs.filter (fun t => t ≠ "")
  let paraText := String.join (paragraphs.map (fun t => t ++ "\n"))
  let tableText := String.join (d.tables.map (fun tbl =>
    String.join (tbl.map (fun row =>
      let row_text := String.intercalate " | " (row.filter (fun c => c ≠ ""))
      if row_text ≠ "" then row_text ++ "\n" else ""))))
  .ok { emptyResult with
    text := some (pyStrip (paraText ++ tableText)),
    metadata := some metadata,
    paragraphs := some paragraphs }

/-- `DocumentExtractor._extract_from_doc` (document_extractor.py:166-176):
textract with an internal catch converting failure to an error result. -/
def extract_from_doc (env : ExtractEnv) (path : String) :
    Except String ExtractionResult :=
  match env.textract path with
  | .ok t => .ok { emptyResult with text := some (pyStrip t), metadata := some [] }
  | .error e =>
    .ok { emptyResult with error := some ("DOC extraction failed: " ++ e) }

/-- `DocumentExtractor._extract_from_txt` (document_extractor.py:178-213):
UTF-8 first; on `UnicodeDecodeError`, retry as Latin-1 recording the
encoding; a non-decode exception from the first read is NOT caught here. -/
def extract_from_txt (env : ExtractEnv) (path : String) :
    Except String ExtractionResult :=
  match env.readUtf8 path with
  | .ok t =>
    .ok { emptyResult with
      text := some (pyStrip t),
      metadata := some [("filename", env.basename path),
        ("size", toString (env.getsize path))],
      lines := some (pySplitChar '\n' t) }
  | .error .unicodeDecode =>
    match env.readLatin1 path with
    | .ok t =>
      .ok { emptyResult with
        text := some (pyStrip t),
        metadata := some [("filename", env.basename path),
          ("size", toString (env.getsize path)), ("encoding", "latin-1")],
        lines := some (pySplitChar '\n' t) }
    | .error e =>
      .ok { emptyResult with error := some ("Text extraction failed: " ++ e) }
  | .error (.other e) => .error e

/-- `DocumentExtractor._extract_with_textract` (document_extractor.py:215-228),
for unsupported extensions; catches internally. -/
def extract_with_textract (env : ExtractEnv) (path : String) : ExtractionResult :=
  match env.textract path with
  | .ok t =>
    { emptyResult with
      text := some (pyStrip t),
      metadata := some [("filename", env.basename path),
        ("size", toString (env.getsize path))] }
  | .error e =>
    { emptyResult with
      error := some ("Unsupported file type extraction failed: " ++ e) }

/-- The handler dispatch of `self.supported_extensions`. -/
def extractByExt (env : ExtractEnv) (path ext : String) :
    Except String ExtractionResult :=
  if ext = ".pdf" then extract_from_pdf env path
  else if ext = ".docx" then extract_from_docx env path
  else if ext = ".doc" then extract_from_doc env path
  else extract_from_txt env path

/-- `DocumentExtractor.extract` (document_extractor.py:44-70): existence
check, extension dispatch (unknown extensions to textract), and the outer
try/except converting any handler exception into an error result. -/
def extract (env : ExtractEnv) (path : String) : ExtractionResult :=
  if ¬ env.pathExists path then
    { emptyResult with error := some ("File not found: " ++ path) }
  else
    let ext := env.splitextExt (pyLower path)
    if ext ∈ [".pdf", ".docx", ".doc", ".txt"] then
      match extractByExt env path ext with
      | .ok r => r
      | .error e => { emptyResult with error := some ("Extraction failed: " ++ e) }
    else extract_with_textract env path

/-- `image_utils.extract_images_from_pdf` (image_utils.py:19-50): open with
fitz, iterate pages and in-page images in order, extract/encode each, run OCR
and perceptual hashing; NO try/except — any failure propagates. -/
def extract_images_from_pdf (env : ExtractEnv) (path : String) :
    Except String (List ImageSample) := do
  let pages ← env.fitzOpen path
  let nested ← (List.range pages.length).mapM (fun pnum =>
    (List.range (pages.getD pnum []).length).mapM (fun i => do
      let (b64, fmt) ← env.extractImage ((pages.getD pnum []).getD i 0)
      let o := env.ocr b64
      pure { content := b64, format := fmt, page := some (pnum + 1),
             idx := some i, relationship_id := none,
             ocr_text := o.1, ocr_confidence := o.2,
             phash := env.phash b64 : ImageSample }))
  pure nested.join

/-- Python's `needle in haystack` substring test. -/
def containsSub (needle : List Char) : List Char → Bool
  | [] => needle.isEmpty
  | c :: cs => needle.isPrefixOf (c :: cs) || containsSub needle cs

/-- `image_utils.extract_images_from_docx` (image_utils.py:52-81): iterate
the package relationships whose target contains "image"; NO try/except. -/
def extract_images_from_docx (env : ExtractEnv) (path : String) :
    Except String (List ImageSample) := do
  let rels ← env.docxRels path
  pure ((rels.filter (fun r => containsSub "image".data r.targetRef.data)).map
    (fun r =>
      let o := env.ocr r.blob64
      { content := r.blob64,
        format := (r.contentType.splitOn "/").getLastD "",
        page := none, idx := none, relationship_id := some r.relId,
        ocr_text := o.1, ocr_confidence := o.2,
        phash := env.phash r.blob64 : ImageSample }))

/-- `DocumentExtractor.extract_with_images` (document_extractor.py:230-244):
base extraction, then image extraction for .pdf/.docx, with NO guard around
the image stage — its exceptions escape the call. -/
def extract_with_images (env : ExtractEnv) (path : String) :
    Except String ExtractionResult := do
  let base := extract env path
  let ext := env.splitextExt (pyLower path)
  let images ←
    if ext = ".pdf" then extract_images_from_pdf env path
    else if ext = ".docx" then extract_images_from_docx env path
    else pure []
  pure { base with images := some images }

/-! ## `DocumentAnalyzer.analyze` (document_analyzer.py:77-131)

The tokenizers and the per-section heavy computations are oracles: the
keywords and entities calls return `Except` (the TF-IDF vectorizer and the
spaCy pipeline can raise, and `analyze` does not guard them), while the
summary, topics and sentiment sections catch internally (summarize falls back
to extractive output, topics to `[]`, sentiment to a neutral default — the
caught sentiment value also carries an error message key, not modelled here
as no claim inspects it).  Readability is wired to the embedded
`calculate_readability`. -/

/-- Oracles for one `analyze` call. -/
structure AnalyzeEnv where
  wordTok : String → List String
  sentTok : String → List String
  keywords : String → Except String (List (String × ℚ))
  entities : String → Except String (List (String × List String))
  summary : String → String
  topics : String → Except String (List (String × ℚ))
  sentChunks : String → Except String (List (String × ℚ))

/-- The options dict: a field is `none` when its key is absent. -/
structure AnalysisOptions where
  keywords : Option Bool
  entities : Option Bool
  summary : Option Bool
  topics : Option Bool
  sentiment : Option Bool
  readability : Option Bool
  deriving DecidableEq, Repr

/-- The options dict with no keys. -/
def emptyOptions : AnalysisOptions :=
  { keywords := none, entities := none, summary := none, topics := none,
    sentiment := none, readability := none }

/-- The explicit default dict built when `options is None`
(document_analyzer.py:93-101). -/
def defaultOptions : AnalysisOptions :=
  { keywords := some true, entities := some true, summary := some true,
    topics := some true, sentiment := some false, readability := some true }

/-- `options = None` resolution. -/
def resolvedOptions (opts : Option AnalysisOptions) : AnalysisOptions :=
  match opts with
  | none => defaultOptions
  | some o => o

/-- The analysis result dict: a field is `none` when its key is absent. -/
structure AnalysisResult where
  error : Option String
  text_length : Option ℕ
  word_count : Option ℕ
  sentence_count : Option ℕ
  keywords : Option (List (String × ℚ))
  entities : Option (List (String × List String))
  summary : Option String
  topics : Option (List (String × ℚ))
  sentiment : Option SentimentResult
  readability : Option (List (String × ℚ))
  deriving DecidableEq

/-- The result with no keys. -/
def emptyAnalysis : AnalysisResult :=
  { error := none, text_length := none, word_count := none,
    sentence_count := none, keywords := none, entities := none,
    summary := none, topics := none, sentiment := none, readability := none }

/-- `DocumentAnalyzer.analyze` (document_analyzer.py:77-131). -/
def analyze (env : AnalyzeEnv) (text : String) (opts : Option AnalysisOptions) :
    Except String AnalysisResult :=
  if pyStrip text = "" then
    .ok { emptyAnalysis with error := some "Empty text provided for analysis" }
  else
    let options := resolvedOptions opts
    let base := { emptyAnalysis with
      text_length := some text.length,
      word_count := some (env.wordTok text).length,
      sentence_count := some (env.sentTok text).length }
    do
    let r1 ←
      if options.keywords.getD true then do
        let kw ← env.keywords text
        pure { base with keywords := some kw }
      else pure base
    let r2 ←
      if options.entities.getD true then do
        let en ← env.entities text
        pure { r1 with entities := some en }
      else pure r1
    let r3 :=
      if options.summary.getD true then { r2 with summary := some (env.summary text) }
      else r2
    let r4 :=
      if options.topics.getD true then
        { r3 with topics := some (match env.topics text with
            | .ok l => l
            | .error _ => []) }
      else r3
    let r5 :=
      if options.sentiment.getD false then
        { r4 with sentiment := some (match env.sentChunks text with
            | .ok rs => aggregate_sentiment rs
            | .error _ =>
              { label := "NEUTRAL", score := 1 / 2,
                positive_ratio := none, negative_ratio := none }) }
      else r4
    let r6 :=
      if options.readability.getD true then
        let rd := calculate_readability (env.sentTok text) (env.wordTok text)
        { r5 with readability := some rd }
      else r5
    .ok r6

/-- The options dict with all six keys explicitly false. -/
def allFalseOptions : AnalysisOptions :=
  { keywords := some false, entities := some false, summary := some false,
    topics := some false, sentiment := some false, readability := some false }

/-- A trivial oracle environment for analyzer witnesses. -/
def demoAnalyzeEnv : AnalyzeEnv :=
  { wordTok := fun _ => ["a"],
    sentTok := fun _ => ["a."],
    keywords := fun _ => .ok [],
    entities := fun _ => .ok [],
    summary := fun _ => "s",
    topics := fun _ => .ok [],
    sentChunks := fun _ => .ok [] }

/-- The analysis result of a default-options run over `demoAnalyzeEnv` and
the text "hi" (one word, one sentence, one syllable). -/
def demoDefaultResult : AnalysisResult :=
  { error := none, text_length := some 2, word_count := some 1,
    sentence_count := some 1, keywords := some [], entities := some [],
    summary := some "s", topics := some [], sentiment := none,
    readability := some
      [("flesch_reading_ease", 121.22), ("flesch_kincaid_grade", -3.4),
       ("complex_word_ratio", 0), ("avg_words_per_sentence", 1),
       ("avg_syllables_per_word", 1)] }

/-- A `text` value that is present and non-empty. -/
def populatedText (r : ExtractionResult) : Prop :=
  ∃ s, r.text = some s ∧ s ≠ ""

/-- An `error` value that is present and non-empty. -/
def populatedError (r : ExtractionResult) : Prop :=
  ∃ s, r.error = some s ∧ s ≠ ""

/-- An environment where every oracle fails, except as overridden. -/
def failEnv : ExtractEnv :=
  { pathExists := fun _ => true,
    splitextExt := fun _ => ".txt",
    basename := fun _ => "f",
    getsize := fun _ => 0,
    pypdf2 := fun _ => .error "n/a",
    pdfminer := fun _ => .error "n/a",
    docxOpen := fun _ => .error "n/a",
    textract := fun _ => .error "n/a",
    readUtf8 := fun _ => .ok "",
    readLatin1 := fun _ => .error "n/a",
    fitzOpen := fun _ => .error "n/a",
    extractImage := fun _ => .error "n/a",
    ocr := fun _ => ("", 0),
    phash := fun _ => "",
    docxRels := fun _ => .error "n/a" }

/-- The C1 counterexample environment: a readable PDF whose text extraction
succeeds but whose fitz image stage raises. -/
def c1Env : ExtractEnv :=
  { failEnv with
    splitextExt := fun _ => ".pdf",
    pypdf2 := fun _ => .ok { meta := none, pages := ["Hello"] },
    fitzOpen := fun _ => .error "fitz cannot open" }

theorem vowelGroupLoop_eq_aux (w : List Char) (prev : Bool) (acc : Nat) :
    vowelGroupLoop w prev acc =
      acc + (w.zip (prev :: w.map isVowel)).countP (fun p => isVowel p.1 && ! p.2) := by
  induction w generalizing prev acc with
  | nil => simp [vowelGroupLoop]
  | cons c rest ih =>
    simp only [vowelGroupLoop, List.map_cons, List.zip_cons_cons, List.countP_cons]
    rw [ih]
    by_cases h : (isVowel c && ! prev) = true
    · simp [h]
      omega
    · simp [h]

theorem vowelGroupLoop_eq_spec (w : List Char) :
    vowelGroupLoop w false 0 = specVowelGroups w := by
  rw [vowelGroupLoop_eq_aux, specVowelGroups]
  simp

theorem toLower_of_lower (c : Char) (h1 : 'a' ≤ c) :
    Char.toLower c = c := by
  have h97 : 97 ≤ c.toNat := h1
  unfold Char.toLower
  rw [if_neg]
  intro hx
  omega

theorem map_toLower_of_clean (l : List Char)
    (h : ∀ c ∈ l, 'a' ≤ c ∧ c ≤ 'z') : l.map Char.toLower = l := by
  induction l with
  | nil => rfl
  | cons a t ih =>
    simp only [List.map_cons]
    rw [toLower_of_lower a (h a (by simp)).1, ih (fun c hc => h c (by simp [hc]))]

theorem cleanWord_of_clean (w : String)
    (h : ∀ c ∈ w.data, 'a' ≤ c ∧ c ≤ 'z') : cleanWord w = w.data := by
  unfold cleanWord
  rw [map_toLower_of_clean w.data h]
  apply List.filter_eq_self.mpr
  intro c hc
  simp only [Bool.and_eq_true, decide_eq_true_eq]
  exact ⟨(h c hc).1, (h c hc).2⟩

/-- C8: for every lowercase, letters-only word, `_count_syllables` computes
exactly the spec's estimator: the closed set {the, me, she, he, be, we} returns
1 immediately; otherwise the number of transitions into vowel groups over
{a,e,i,o,u,y}, minus 1 for a trailing "e", plus 1 back for a trailing "le"
preceded by a non-vowel in a word of length ≥ 3, clamped to a minimum of 1. -/
theorem count_syllables_spec (w : String) (hne : w.data ≠ [])
    (h : ∀ c ∈ w.data, 'a' ≤ c ∧ c ≤ 'z') :
    count_syllables w = specCountSyllables w.data := by
  simp only [count_syllables, specCountSyllables, cleanWord_of_clean w h,
    vowelGroupLoop_eq_spec]
  rw [if_neg hne]

/-- Witness for C8 at the concrete word "style". -/
theorem count_syllables_spec_witness :
    ("style".data ≠ [] ∧ ∀ c ∈ "style".data, 'a' ≤ c ∧ c ≤ 'z') ∧
      count_syllables "style" = specCountSyllables "style".data :=
  ⟨⟨by decide, by decide⟩, count_syllables_spec "style" (by decide) (by decide)⟩

/-- C7 counterexample: on empty input (no sentences, no tokens) the code
returns only the three Flesch/complex keys, all zero — not the all-zero
five-metric result the claim describes (the two averages are omitted). -/
theorem calculate_readability_empty_counterexample :
    calculate_readability [] [] =
      [("flesch_reading_ease", 0), ("flesch_kincaid_grade", 0),
       ("complex_word_ratio", 0)] ∧
    calculate_readability [] [] ≠ allZeroReadability := by
  constructor
  · simp [calculate_readability]
  · simp [calculate_readability, allZeroReadability]

/-- C7 amended: with at least one letter-containing token and at least one
sentence, `calculate_readability` returns the five metrics computed by the
claimed formulas (grade metrics and averages rounded to 2 decimals, the ratio
to 3); when the word list or sentence list is empty it returns the three
Flesch/complex metrics as zero, omitting the two averages, and performs no
division. -/
theorem calculate_readability_spec (sentences tokens : List String) :
    (tokens.filter hasAlpha = [] ∨ sentences = [] →
      calculate_readability sentences tokens =
        [("flesch_reading_ease", 0), ("flesch_kincaid_grade", 0),
         ("complex_word_ratio", 0)]) ∧
    (tokens.filter hasAlpha ≠ [] → sentences ≠ [] →
      calculate_readability sentences tokens =
        [("flesch_reading_ease",
           pyRound 2 (206.835
             - 1.015 * ((tokens.filter hasAlpha).length / (sentences.length : ℚ))
             - 84.6 * ((((tokens.filter hasAlpha).map wordSyllables).sum : ℚ)
                 / ((tokens.filter hasAlpha).length : ℚ)))),
         ("flesch_kincaid_grade",
           pyRound 2 (0.39 * ((tokens.filter hasAlpha).length / (sentences.length : ℚ))
             + 11.8 * ((((tokens.filter hasAlpha).map wordSyllables).sum : ℚ)
                 / ((tokens.filter hasAlpha).length : ℚ)) - 15.59)),
         ("complex_word_ratio",
           pyRound 3 (((tokens.filter hasAlpha).countP (fun w => 3 ≤ wordSyllables w) : ℚ)
             / ((tokens.filter hasAlpha).length : ℚ))),
         ("avg_words_per_sentence",
           pyRound 2 ((tokens.filter hasAlpha).length / (sentences.length : ℚ))),
         ("avg_syllables_per_word",
           pyRound 2 ((((tokens.filter hasAlpha).map wordSyllables).sum : ℚ)
             / ((tokens.filter hasAlpha).length : ℚ)))]) := by
  constructor
  · intro h
    simp only [calculate_readability]
    rw [if_pos h]
  · intro hw hs
    have hwlen : (tokens.filter hasAlpha).length ≠ 0 := by
      simpa [List.length_eq_zero] using hw
    have hslen : sentences.length ≠ 0 := by
      simpa [List.length_eq_zero] using hs
    have hcond : ¬(sentences.length = 0 ∨ (tokens.filter hasAlpha).length = 0) := by
      push_neg
      exact ⟨hslen, hwlen⟩
    simp only [calculate_readability]
    rw [if_neg (by push_neg; exact ⟨hw, hs⟩), if_neg hcond, if_neg hcond,
      if_pos (Nat.pos_of_ne_zero hwlen), if_pos (Nat.pos_of_ne_zero hslen),
      if_pos (Nat.pos_of_ne_zero hwlen)]

/-- Witness for C7 at concrete inputs: one sentence with the single word
"cat." (1 word, 1 sentence, 1 syllable), and the empty input. -/
theorem calculate_readability_spec_witness :
    calculate_readability ["A cat."] ["cat."] =
      [("flesch_reading_ease", 121.22), ("flesch_kincaid_grade", -3.4),
       ("complex_word_ratio", 0), ("avg_words_per_sentence", 1),
       ("avg_syllables_per_word", 1)] ∧
    calculate_readability [] [] =
      [("flesch_reading_ease", 0), ("flesch_kincaid_grade", 0),
       ("complex_word_ratio", 0)] := by
  constructor
  · have h := (calculate_readability_spec ["A cat."] ["cat."]).2
      (by decide) (by decide)
    rw [h]
    have hf : List.filter hasAlpha ["cat."] = ["cat."] := by decide
    have hs : wordSyllables "cat." = 1 := by decide
    rw [hf]
    norm_num [hs, pyRound, roundHalfEven, Int.floor_neg]
  · exact (calculate_readability_spec [] []).1 (Or.inl rfl)

theorem filter_map_sum_eq_classSum (lab : String) (results : List (String × ℚ)) :
    ((results.filter (fun r => r.1 = lab)).map Prod.snd).sum = classSum lab results := by
  induction results with
  | nil => rfl
  | cons a t ih =>
    by_cases h : a.1 = lab
    · simp [classSum, List.filter_cons, h] at ih ⊢
      exact ih
    · simp [classSum, List.filter_cons, h] at ih ⊢
      exact ih

theorem filter_length_eq_countP (lab : String) (results : List (String × ℚ)) :
    (results.filter (fun r => r.1 = lab)).length =
      results.countP (fun r => r.1 = lab) := by
  rw [List.countP_eq_length_filter]

/-- C5: `analyze_sentiment`'s aggregation over per-chunk classifications:
majority vote on the label, ties broken by the larger summed class confidence
(an exact tie of the sums resolves to POSITIVE); the score is the winning
class's summed confidence divided by the total number of chunks;
positive_ratio and negative_ratio are vote-count fractions of total chunks;
zero chunks yields label NEUTRAL with score 0.5 (and no ratios). -/
theorem aggregate_sentiment_spec (results : List (String × ℚ)) :
    (results = [] →
      aggregate_sentiment results =
        { label := "NEUTRAL", score := 1 / 2,
          positive_ratio := none, negative_ratio := none }) ∧
    (results ≠ [] →
      (results.countP (fun r => r.1 = "NEGATIVE") <
          results.countP (fun r => r.1 = "POSITIVE") →
        (aggregate_sentiment results).label = "POSITIVE" ∧
        (aggregate_sentiment results).score =
          classSum "POSITIVE" results / results.length) ∧
      (results.countP (fun r => r.1 = "POSITIVE") <
          results.countP (fun r => r.1 = "NEGATIVE") →
        (aggregate_sentiment results).label = "NEGATIVE" ∧
        (aggregate_sentiment results).score =
          classSum "NEGATIVE" results / results.length) ∧
      (results.countP (fun r => r.1 = "POSITIVE") =
          results.countP (fun r => r.1 = "NEGATIVE") →
        (classSum "NEGATIVE" results ≤ classSum "POSITIVE" results →
          (aggregate_sentiment results).label = "POSITIVE" ∧
          (aggregate_sentiment results).score =
            classSum "POSITIVE" results / results.length) ∧
        (classSum "POSITIVE" results < classSum "NEGATIVE" results →
          (aggregate_sentiment results).label = "NEGATIVE" ∧
          (aggregate_sentiment results).score =
            classSum "NEGATIVE" results / results.length)) ∧
      (aggregate_sentiment results).positive_ratio =
        some ((results.countP (fun r => r.1 = "POSITIVE") : ℚ) / results.length) ∧
      (aggregate_sentiment results).negative_ratio =
        some ((results.countP (fun r => r.1 = "NEGATIVE") : ℚ) / results.length)) := by
  constructor
  · intro h
    simp [aggregate_sentiment, h]
  · intro hne
    simp only [aggregate_sentiment, if_neg hne, filter_map_sum_eq_classSum,
      filter_length_eq_countP]
    refine ⟨?_, ?_, ?_, by first | rfl | trivial, by first | rfl | trivial⟩
    · intro hlt
      rw [if_pos hlt]
      exact ⟨rfl, rfl⟩
    · intro hlt
      rw [if_neg (by omega), if_pos hlt]
      exact ⟨rfl, rfl⟩
    · intro heq
      constructor
      · intro hle
        rw [if_neg (by omega), if_neg (by omega), if_pos hle]
        exact ⟨rfl, rfl⟩
      · intro hlt
        rw [if_neg (by omega), if_neg (by omega), if_neg (by exact not_le.mpr hlt)]
        exact ⟨rfl, rfl⟩

/-- Witness for C5: three chunks, two POSITIVE votes (0.9 and 0.6) and one
NEGATIVE (0.8): label POSITIVE, score (0.9+0.6)/3 = 0.5, ratios 2/3 and 1/3;
and the zero-chunk case. -/
theorem aggregate_sentiment_spec_witness :
    aggregate_sentiment [] =
      { label := "NEUTRAL", score := 1 / 2,
        positive_ratio := none, negative_ratio := none } ∧
    (aggregate_sentiment
        [("POSITIVE", 9 / 10), ("NEGATIVE", 4 / 5), ("POSITIVE", 3 / 5)]).label
        = "POSITIVE" ∧
    (aggregate_sentiment
        [("POSITIVE", 9 / 10), ("NEGATIVE", 4 / 5), ("POSITIVE", 3 / 5)]).score
        = 1 / 2 := by
  have h0 := (aggregate_sentiment_spec []).1 rfl
  have h := ((aggregate_sentiment_spec
      [("POSITIVE", 9 / 10), ("NEGATIVE", 4 / 5), ("POSITIVE", 3 / 5)]).2
      (by simp)).1 (by decide)
  refine ⟨h0, h.1, ?_⟩
  rw [h.2]
  simp only [classSum, List.map_cons, List.map_nil, List.sum_cons, List.sum_nil,
    List.length_cons, List.length_nil, String.reduceEq, if_false, if_true]
  norm_num

/-- C6 counterexample: a 4-sentence document in which only two sentences
contain content words.  The code's `sentence_scores` has no entry for the
other two sentences, so the fallback returns a 2-sentence summary, while the
claim's "top 3 sentences by score" would return 3 sentences. -/
theorem extractive_top3_counterexample :
    extractive_summarize c6Env "doc" 3 = "Cats sleep. Dogs run." ∧
    claimedExtractive c6Env "doc" 3 = "Cats sleep. Mm. Dogs run." ∧
    extractive_summarize c6Env "doc" 3 ≠ claimedExtractive c6Env "doc" 3 := by
  have hsl : c6Env.sentTok "doc" = ["Cats sleep.", "Mm.", "Hm.", "Dogs run."] := rfl
  have hall : contentWords c6Env ["Cats sleep.", "Mm.", "Hm.", "Dogs run."] =
      ["cats", "sleep", "dogs", "run"] := by decide
  have hrange : List.range 4 = [0, 1, 2, 3] := by decide
  have hg0 : List.getD ["Cats sleep.", "Mm.", "Hm.", "Dogs run."] 0 "" = "Cats sleep." := by decide
  have hg1 : List.getD ["Cats sleep.", "Mm.", "Hm.", "Dogs run."] 1 "" = "Mm." := by decide
  have hg2 : List.getD ["Cats sleep.", "Mm.", "Hm.", "Dogs run."] 2 "" = "Hm." := by decide
  have hg3 : List.getD ["Cats sleep.", "Mm.", "Hm.", "Dogs run."] 3 "" = "Dogs run." := by decide
  have hf0 : (c6Env.wordTok (pyLower "Cats sleep.")).filter
      (fun w => (["cats", "sleep", "dogs", "run"] : List String).contains w)
      = ["cats", "sleep"] := by decide
  have hf1 : (c6Env.wordTok (pyLower "Mm.")).filter
      (fun w => (["cats", "sleep", "dogs", "run"] : List String).contains w)
      = [] := by decide
  have hf2 : (c6Env.wordTok (pyLower "Hm.")).filter
      (fun w => (["cats", "sleep", "dogs", "run"] : List String).contains w)
      = [] := by decide
  have hf3 : (c6Env.wordTok (pyLower "Dogs run.")).filter
      (fun w => (["cats", "sleep", "dogs", "run"] : List String).contains w)
      = ["dogs", "run"] := by decide
  have hmax : (if (["cats", "sleep", "dogs", "run"] : List String) = [] then 1
      else ((["cats", "sleep", "dogs", "run"] : List String).map
        (fun w => (["cats", "sleep", "dogs", "run"] : List String).count w)).foldr
          Nat.max 0) = 1 := by decide
  have hc1 : (["cats", "sleep", "dogs", "run"] : List String).count "cats" = 1 := by decide
  have hc2 : (["cats", "sleep", "dogs", "run"] : List String).count "sleep" = 1 := by decide
  have hc3 : (["cats", "sleep", "dogs", "run"] : List String).count "dogs" = 1 := by decide
  have hc4 : (["cats", "sleep", "dogs", "run"] : List String).count "run" = 1 := by decide
  have hj1 : String.intercalate " " ["Cats sleep.", "Dogs run."]
      = "Cats sleep. Dogs run." := by decide
  have hj2 : String.intercalate " " ["Cats sleep.", "Mm.", "Dogs run."]
      = "Cats sleep. Mm. Dogs run." := by decide
  have h1 : extractive_summarize c6Env "doc" 3 = "Cats sleep. Dogs run." := by
    simp only [extractive_summarize, hsl, hall, hrange, List.length_cons,
      List.length_nil, hg0, hg1, hg2, hg3, hf0, hf1, hf2, hf3, hmax,
      List.filterMap_cons, List.filterMap_nil]
    norm_num [hc1, hc2, hc3, hc4, sortedDescBy, insertDescBy, sortedAscN,
      insertAscN, List.cons_ne_nil, hj1, hj2]
  have h2 : claimedExtractive c6Env "doc" 3 = "Cats sleep. Mm. Dogs run." := by
    simp only [claimedExtractive, hsl, hall, hrange, List.length_cons,
      List.length_nil, hg0, hg1, hg2, hg3, hf0, hf1, hf2, hf3, hmax,
      List.map_cons, List.map_nil]
    norm_num [hc1, hc2, hc3, hc4, sortedDescBy, insertDescBy, sortedAscN,
      insertAscN, List.cons_ne_nil, hj1, hj2]
  refine ⟨h1, h2, ?_⟩
  rw [h1, h2]
  decide

theorem filterMap_filter_guard {α β : Type} (l : List α) (g : α → List String)
    (p : String → Bool) (f : α → β) :
    (l.filterMap (fun i => if (g i).filter p = [] then none else some (f i))) =
      (l.filter (fun i => (g i).any p)).map f := by
  induction l with
  | nil => rfl
  | cons a t ih =>
    rw [List.filterMap_cons, List.filter_cons]
    by_cases h : (g a).filter p = []
    · have hany : (g a).any p = false := by
        rw [List.any_eq_false]
        intro x hx hpx
        have hmem : x ∈ (g a).filter p := List.mem_filter.mpr ⟨hx, hpx⟩
        rw [h] at hmem
        exact absurd hmem (List.not_mem_nil x)
      rw [if_pos h, hany]
      simpa using ih
    · have hany : (g a).any p = true := by
        obtain ⟨x, hx⟩ := List.exists_mem_of_ne_nil _ h
        have hxm := List.mem_filter.mp hx
        exact List.any_eq_true.mpr ⟨x, hxm.1, hxm.2⟩
      rw [if_neg h, hany]
      simpa using ih

theorem insertAscN_mem (x z : ℕ) (l : List ℕ) :
    z ∈ insertAscN x l ↔ z = x ∨ z ∈ l := by
  induction l with
  | nil => simp [insertAscN]
  | cons y ys ih =>
    by_cases h : y ≤ x
    · rw [insertAscN, if_pos h]
      simp only [List.mem_cons, ih] <;> tauto
    · rw [insertAscN, if_neg h]
      simp only [List.mem_cons] <;> tauto

theorem insertAscN_pairwise (x : ℕ) (l : List ℕ)
    (h : l.Pairwise (· ≤ ·)) : (insertAscN x l).Pairwise (· ≤ ·) := by
  induction l with
  | nil => simp [insertAscN]
  | cons y ys ih =>
    rcases List.pairwise_cons.mp h with ⟨hy, hys⟩
    by_cases hle : y ≤ x
    · rw [insertAscN, if_pos hle]
      refine List.pairwise_cons.mpr ⟨?_, ih hys⟩
      intro z hz
      rcases (insertAscN_mem x z ys).mp hz with rfl | hz
      · exact hle
      · exact hy z hz
    · rw [insertAscN, if_neg hle]
      refine List.pairwise_cons.mpr ⟨?_, h⟩
      intro z hz
      rcases List.mem_cons.mp hz with rfl | hz
      · omega
      · exact le_trans (by omega) (hy z hz)

theorem sortedAscN_pairwise (l : List ℕ) : (sortedAscN l).Pairwise (· ≤ ·) := by
  suffices H : ∀ acc : List ℕ, acc.Pairwise (· ≤ ·) →
      (l.foldl (fun acc x => insertAscN x acc) acc).Pairwise (· ≤ ·) by
    exact H [] (by simp)
  induction l with
  | nil => intro acc hacc; exact hacc
  | cons a t ih =>
    intro acc hacc
    exact ih _ (insertAscN_pairwise a acc hacc)

/-- C6 amended: (i) `summarize` returns the text unchanged when its
whitespace word count is below `min_length` = 40; (ii) the extractive
fallback returns its input text unchanged when the document has at most
`sentences_count` sentences; (iii) otherwise it joins, with single spaces and
in ascending original position, the top `sentences_count` sentences by summed
normalized content-word frequency AMONG the sentences containing at least one
content word (sentences with none are never selected, so fewer than
`sentences_count` sentences may be returned); (iv) the selected indices are
emitted in ascending order, so original sentence order is always preserved
regardless of score order. -/
theorem summarize_spec :
    (∀ (env : TokEnv) (senv : SummEnv) (text : String) (maxLen : ℕ),
      (pySplit text).length < 40 → summarize env senv text maxLen 40 = text) ∧
    (∀ (env : TokEnv) (text : String) (cnt : ℕ),
      (env.sentTok text).length ≤ cnt → extractive_summarize env text cnt = text) ∧
    (∀ (env : TokEnv) (text : String) (cnt : ℕ),
      cnt < (env.sentTok text).length →
      extractive_summarize env text cnt =
        String.intercalate " "
          ((sortedAscN (((sortedDescBy Prod.snd
              (scoredSentences env text)).take cnt).map Prod.fst)).map
            (fun i => (env.sentTok text).getD i ""))) ∧
    (∀ l : List ℕ, (sortedAscN l).Pairwise (· ≤ ·)) := by
  refine ⟨?_, ?_, ?_, sortedAscN_pairwise⟩
  · intro env senv text maxLen h
    rw [summarize, if_pos h]
  · intro env text cnt h
    rw [extractive_summarize, if_pos h]
  · intro env text cnt h
    simp only [extractive_summarize, scoredSentences]
    rw [if_neg (by omega)]
    rw [filterMap_filter_guard]

/-- Witness for C6 at concrete inputs: a 2-word text for the min_length
branch, the 4-sentence `c6Env` document with `sentences_count` 5 (at most as
many sentences) and 3 (fewer), and a concrete index list. -/
theorem summarize_spec_witness :
    summarize c6Env { load := .ok (), run := fun _ => .ok "S" } "hi there" 150 40
      = "hi there" ∧
    extractive_summarize c6Env "doc" 5 = "doc" ∧
    extractive_summarize c6Env "doc" 3 =
      String.intercalate " "
        ((sortedAscN (((sortedDescBy Prod.snd
            (scoredSentences c6Env "doc")).take 3).map Prod.fst)).map
          (fun i => (c6Env.sentTok "doc").getD i "")) ∧
    (sortedAscN [2, 0, 1]).Pairwise (· ≤ ·) := by
  refine ⟨summarize_spec.1 c6Env _ "hi there" 150 (by decide),
    summarize_spec.2.1 c6Env "doc" 5 (by decide),
    summarize_spec.2.2.1 c6Env "doc" 3 (by decide),
    summarize_spec.2.2.2 [2, 0, 1]⟩

/-- C4 counterexample: in `kwDemoEnv` the single sentence contains two
distinct surface tokens ("cats", "cat") with the same lemma "cat", so the
code adds the sentence's TF-IDF weight of "cat" twice (score 2 after the
frequency boost), while the claimed formula — the weight summed once per
containing sentence, times frequency 2 — yields 1. -/
theorem extract_keywords_counterexample :
    extract_keywords kwDemoEnv 10 = [("cat", 2), ("sleep", 1 / 2)] ∧
    claimedKeywordScore kwDemoEnv "cat" = 1 ∧
    claimedKeywordScore kwDemoEnv "cat" ≠ 2 := by
  have hded : dedupFirst ((kwDemoEnv.sentTokens.getD 0 []).filter pyIsAlnum)
      = ["cats", "cat", "sleep"] := by decide
  have hrange : List.range 1 = [0] := by decide
  have hcount : (freqLemmas kwDemoEnv).count "cat" = 2 := by decide
  have hcount2 : (freqLemmas kwDemoEnv).count "sleep" = 1 := by decide
  have hts : tfidfScores kwDemoEnv = [("cat", 1 / 2 + 1 / 2), ("sleep", 1 / 2)] := by
    simp only [tfidfScores]
    rw [show kwDemoEnv.sentTokens.length = 1 from rfl, hrange]
    simp only [List.foldl_cons, List.foldl_nil]
    rw [hded]
    simp only [List.foldl_cons, List.foldl_nil]
    norm_num +decide [kwDemoEnv, upsert, List.mem_cons, List.not_mem_nil]
  have hsel : (List.range kwDemoEnv.sentTokens.length).filter (fun i =>
      ((kwDemoEnv.sentTokens.getD i []).filter pyIsAlnum).any
        (fun t => ! kwDemoEnv.isStop t && kwDemoEnv.lemmatize t = "cat")) = [0] := by
    decide
  have h2 : claimedKeywordScore kwDemoEnv "cat" = 1 := by
    simp only [claimedKeywordScore, hsel, hcount, List.map_cons, List.map_nil,
      List.sum_cons, List.sum_nil]
    norm_num [kwDemoEnv]
  refine ⟨?_, h2, by rw [h2]; norm_num⟩
  simp only [extract_keywords, hts, List.map_cons, List.map_nil, hcount, hcount2]
  norm_num [sortedDescBy, insertDescBy]

theorem lookupScore_nil (k : String) : lookupScore k [] = 0 := rfl

theorem lookupScore_cons (k : String) (a : String × ℚ) (t : List (String × ℚ)) :
    lookupScore k (a :: t) = (if a.1 = k then a.2 else 0) + lookupScore k t := by
  by_cases h : a.1 = k <;> simp [lookupScore, List.filter_cons, h]

theorem lookupScore_upsert (k k0 : String) (v : ℚ) (l : List (String × ℚ)) :
    lookupScore k (upsert k0 v l) =
      lookupScore k l + (if k0 = k then v else 0) := by
  induction l with
  | nil =>
    rw [upsert, lookupScore_cons]
    simp only [lookupScore_nil, add_zero, zero_add]
  | cons a t ih =>
    obtain ⟨a1, a2⟩ := a
    rw [upsert]
    by_cases h : a1 = k0
    · rw [if_pos h, lookupScore_cons, lookupScore_cons]
      by_cases hk : a1 = k
      · rw [if_pos hk, if_pos hk, if_pos (h.symm.trans hk)]
        ring
      · rw [if_neg hk, if_neg hk, if_neg (fun hh => hk (h.trans hh))]
        ring
    · rw [if_neg h, lookupScore_cons, lookupScore_cons, ih]
      ring

theorem lookupScore_tokenFold (env : KwEnv) (i : ℕ) (k : String)
    (toks : List String) (acc : List (String × ℚ)) :
    lookupScore k (toks.foldl (fun acc2 token =>
        if env.isStop token then acc2
        else
          let lem := env.lemmatize token
          if lem ∈ env.features then upsert lem (env.tfidf i lem) acc2
          else acc2) acc) =
      lookupScore k acc +
        (toks.countP (fun t => ! env.isStop t && env.lemmatize t = k &&
            decide (k ∈ env.features)) : ℚ) * env.tfidf i k := by
  induction toks generalizing acc with
  | nil => simp
  | cons t ts ih =>
    rw [List.foldl_cons, ih, List.countP_cons]
    by_cases hs : env.isStop t
    · rw [if_pos hs]
      have hp : (!env.isStop t && decide (env.lemmatize t = k) &&
          decide (k ∈ env.features)) = false := by
        simp [hs]
      rw [hp]
      simp only [Bool.false_eq_true, if_false]
      push_cast
      ring
    · rw [if_neg hs]
      simp only []
      by_cases hf : env.lemmatize t ∈ env.features
      · rw [if_pos hf, lookupScore_upsert]
        by_cases hk : env.lemmatize t = k
        · have hp : (!env.isStop t && decide (env.lemmatize t = k) &&
              decide (k ∈ env.features)) = true := by
            simp [hs, hk, hk ▸ hf]
          rw [hp, hk, if_pos rfl]
          simp only [eq_self_iff_true, if_true]
          push_cast
          ring
        · have hp : (!env.isStop t && decide (env.lemmatize t = k) &&
              decide (k ∈ env.features)) = false := by
            simp [hk]
          rw [hp, if_neg hk]
          simp only [Bool.false_eq_true, if_false]
          push_cast
          ring
      · rw [if_neg hf]
        have hp : (!env.isStop t && decide (env.lemmatize t = k) &&
            decide (k ∈ env.features)) = false := by
          by_cases hk : env.lemmatize t = k
          · subst hk
            simp [hf]
          · simp [hk]
        rw [hp]
        simp only [Bool.false_eq_true, if_false]
        push_cast
        ring

theorem lookupScore_sentFold (env : KwEnv) (k : String) (is : List ℕ)
    (acc : List (String × ℚ)) :
    lookupScore k (is.foldl (fun acc i =>
        (dedupFirst ((env.sentTokens.getD i []).filter pyIsAlnum)).foldl
          (fun acc2 token =>
            if env.isStop token then acc2
            else
              let lem := env.lemmatize token
              if lem ∈ env.features then upsert lem (env.tfidf i lem) acc2
              else acc2) acc) acc) =
      lookupScore k acc +
        (is.map (fun i =>
          ((dedupFirst ((env.sentTokens.getD i []).filter pyIsAlnum)).countP
              (fun t => ! env.isStop t && env.lemmatize t = k &&
                decide (k ∈ env.features)) : ℚ) * env.tfidf i k)).sum := by
  induction is generalizing acc with
  | nil => simp
  | cons i rest ih =>
    rw [List.foldl_cons, ih, lookupScore_tokenFold]
    rw [List.map_cons, List.sum_cons]
    ring

theorem lookupScore_tfidfScores (env : KwEnv) (k : String) :
    lookupScore k (tfidfScores env) = amendedRawScore env k := by
  rw [tfidfScores, amendedRawScore, lookupScore_sentFold]
  simp [lookupScore]

theorem upsert_keys (k : String) (v : ℚ) (l : List (String × ℚ)) :
    (upsert k v l).map Prod.fst =
      if k ∈ l.map Prod.fst then l.map Prod.fst
      else l.map Prod.fst ++ [k] := by
  induction l with
  | nil => simp [upsert]
  | cons a t ih =>
    obtain ⟨a1, a2⟩ := a
    rw [upsert]
    by_cases h : a1 = k
    · subst h
      simp
    · rw [if_neg h, List.map_cons, ih]
      by_cases hm : k ∈ t.map Prod.fst
      · rw [if_pos hm, if_pos (by simp [hm])]
        simp
      · rw [if_neg hm, if_neg (by simp [List.mem_cons, hm, Ne.symm h])]
        simp

theorem upsert_nodupKeys (k : String) (v : ℚ) (l : List (String × ℚ))
    (h : (l.map Prod.fst).Nodup) : ((upsert k v l).map Prod.fst).Nodup := by
  rw [upsert_keys]
  by_cases hm : k ∈ l.map Prod.fst
  · simpa [hm] using h
  · rw [if_neg hm]
    refine List.Nodup.append h (List.nodup_singleton k) ?_
    intro a ha hb
    rw [List.mem_singleton] at hb
    subst hb
    exact hm ha

theorem tokenFold_nodupKeys (env : KwEnv) (i : ℕ) (toks : List String)
    (acc : List (String × ℚ)) (h : (acc.map Prod.fst).Nodup) :
    ((toks.foldl (fun acc2 token =>
        if env.isStop token then acc2
        else
          let lem := env.lemmatize token
          if lem ∈ env.features then upsert lem (env.tfidf i lem) acc2
          else acc2) acc).map Prod.fst).Nodup := by
  induction toks generalizing acc with
  | nil => exact h
  | cons t ts ih =>
    rw [List.foldl_cons]
    apply ih
    by_cases hs : env.isStop t
    · rw [if_pos hs]
      exact h
    · rw [if_neg hs]
      simp only []
      by_cases hf : env.lemmatize t ∈ env.features
      · rw [if_pos hf]
        exact upsert_nodupKeys _ _ _ h
      · rw [if_neg hf]
        exact h

theorem tfidfScores_nodupKeys (env : KwEnv) :
    ((tfidfScores env).map Prod.fst).Nodup := by
  rw [tfidfScores]
  generalize List.range env.sentTokens.length = is
  suffices H : ∀ acc : List (String × ℚ), (acc.map Prod.fst).Nodup →
      ((is.foldl (fun acc i =>
        (dedupFirst ((env.sentTokens.getD i []).filter pyIsAlnum)).foldl
          (fun acc2 token =>
            if env.isStop token then acc2
            else
              let lem := env.lemmatize token
              if lem ∈ env.features then upsert lem (env.tfidf i lem) acc2
              else acc2) acc) acc).map Prod.fst).Nodup by
    exact H [] (by simp)
  induction is with
  | nil => intro acc hacc; exact hacc
  | cons i rest ih =>
    intro acc hacc
    rw [List.foldl_cons]
    exact ih _ (tokenFold_nodupKeys env i _ acc hacc)

theorem lookupScore_of_mem (l : List (String × ℚ))
    (hnd : (l.map Prod.fst).Nodup) (kv : String × ℚ) (h : kv ∈ l) :
    lookupScore kv.1 l = kv.2 := by
  induction l with
  | nil => cases h
  | cons a t ih =>
    rw [List.map_cons, List.nodup_cons] at hnd
    rcases List.mem_cons.mp h with rfl | hm
    · rw [lookupScore_cons, if_pos rfl]
      have hz : lookupScore kv.1 t = 0 := by
        unfold lookupScore
        have : t.filter (fun x => x.1 = kv.1) = [] := by
          apply List.filter_eq_nil.mpr
          intro x hx
          simp only [decide_eq_true_eq]
          intro hxk
          exact hnd.1 (hxk ▸ List.mem_map_of_mem Prod.fst hx)
        rw [this]
        rfl
      rw [hz]
      ring
    · rw [lookupScore_cons]
      have hne : a.1 ≠ kv.1 := by
        intro hh
        exact hnd.1 (hh ▸ List.mem_map_of_mem Prod.fst hm)
      rw [if_neg hne, ih hnd.2 hm]
      ring

theorem insertDescBy_mem {α : Type} (key : α → ℚ) (x z : α) (l : List α) :
    z ∈ insertDescBy key x l ↔ z = x ∨ z ∈ l := by
  induction l with
  | nil => simp [insertDescBy]
  | cons y ys ih =>
    by_cases h : key x ≤ key y
    · rw [insertDescBy, if_pos h]
      simp only [List.mem_cons, ih] <;> tauto
    · rw [insertDescBy, if_neg h]
      simp only [List.mem_cons] <;> tauto

theorem insertDescBy_pairwise {α : Type} (key : α → ℚ) (x : α) (l : List α)
    (h : l.Pairwise (fun a b => key b ≤ key a)) :
    (insertDescBy key x l).Pairwise (fun a b => key b ≤ key a) := by
  induction l with
  | nil => simp [insertDescBy]
  | cons y ys ih =>
    rcases List.pairwise_cons.mp h with ⟨hy, hys⟩
    by_cases hle : key x ≤ key y
    · rw [insertDescBy, if_pos hle]
      refine List.pairwise_cons.mpr ⟨?_, ih hys⟩
      intro z hz
      rcases (insertDescBy_mem key x z ys).mp hz with rfl | hz
      · exact hle
      · exact hy z hz
    · rw [insertDescBy, if_neg hle]
      refine List.pairwise_cons.mpr ⟨?_, h⟩
      intro z hz
      rcases List.mem_cons.mp hz with rfl | hz
      · linarith [not_le.mp hle]
      · exact le_trans (hy z hz) (le_of_lt (not_le.mp hle))

theorem sortedDescBy_pairwise {α : Type} (key : α → ℚ) (l : List α) :
    (sortedDescBy key l).Pairwise (fun a b => key b ≤ key a) := by
  suffices H : ∀ acc : List α, acc.Pairwise (fun a b => key b ≤ key a) →
      (l.foldl (fun acc x => insertDescBy key x acc) acc).Pairwise
        (fun a b => key b ≤ key a) by
    exact H [] (by simp)
  induction l with
  | nil => intro acc hacc; exact hacc
  | cons a t ih =>
    intro acc hacc
    exact ih _ (insertDescBy_pairwise key a acc hacc)

/-- C4 amended: every keyword returned by `extract_keywords` is scored as the
sum — over (sentence, distinct alphanumeric non-stopword surface token) pairs
whose token lemmatizes to the keyword, counted only when the keyword is in the
vectorizer vocabulary — of the keyword's TF-IDF weight in that sentence,
multiplied by the keyword's raw frequency count when that count is nonzero;
the output is the stable descending sort of the accumulated lemmas by this
product, truncated to `top_n`, hence in descending score order. -/
theorem extract_keywords_spec (env : KwEnv) (top_n : ℕ) :
    extract_keywords env top_n =
      (sortedDescBy Prod.snd ((tfidfScores env).map
        (fun kv => (kv.1, amendedProduct env kv.1)))).take top_n ∧
    (extract_keywords env top_n).Pairwise (fun a b => b.2 ≤ a.2) := by
  have hmap : (tfidfScores env).map (fun kv =>
      if (freqLemmas env).count kv.1 ≠ 0 then
        (kv.1, kv.2 * ((freqLemmas env).count kv.1 : ℚ))
      else kv) =
      (tfidfScores env).map (fun kv => (kv.1, amendedProduct env kv.1)) := by
    apply List.map_congr_left
    intro kv hkv
    have hv : kv.2 = amendedRawScore env kv.1 := by
      rw [← lookupScore_tfidfScores env kv.1,
        lookupScore_of_mem _ (tfidfScores_nodupKeys env) kv hkv]
    rw [amendedProduct]
    by_cases hc : (freqLemmas env).count kv.1 ≠ 0
    · rw [if_pos hc, if_pos hc, hv]
    · rw [if_neg hc, if_neg hc, ← hv]
  constructor
  · rw [extract_keywords]
    rw [hmap]
  · rw [extract_keywords]
    exact ((sortedDescBy_pairwise Prod.snd _).sublist
      (List.take_sublist _ _)).imp (fun h => h)

theorem scanDollar_bounds (l : List Char) :
    ∀ (pos : ℕ) (st : Option ℕ), (∀ s, st = some s → s < pos) →
    ∀ m ∈ scanDollar l pos st, m.1 < m.2 ∧ m.2 ≤ pos + l.length := by
  induction l with
  | nil => intro pos st hst m hm; cases hm
  | cons ch cs ih =>
    intro pos st hst m hm
    match st with
    | none =>
      rw [scanDollar] at hm
      by_cases h : ch = '$'
      · rw [if_pos h] at hm
        have := ih (pos + 1) (some pos) (by intro s hs; cases hs; omega) m hm
        simp only [List.length_cons]
        omega
      · rw [if_neg h] at hm
        have := ih (pos + 1) none (by intro s hs; cases hs) m hm
        simp only [List.length_cons]
        omega
    | some st0 =>
      rw [scanDollar] at hm
      by_cases h : ch = '$'
      · rw [if_pos h] at hm
        rcases List.mem_cons.mp hm with rfl | hm
        · have := hst st0 rfl
          simp only [List.length_cons]
          omega
        · have := ih (pos + 1) none (by intro s hs; cases hs) m hm
          simp only [List.length_cons]
          omega
      · rw [if_neg h] at hm
        have := ih (pos + 1) (some st0)
          (by intro s hs; cases hs; exact Nat.lt_succ_of_lt (hst _ rfl)) m hm
        simp only [List.length_cons]
        omega

theorem scanPair_bounds (a b c d : Char) :
    ∀ (n : ℕ) (l : List Char), l.length ≤ n →
    ∀ (pos : ℕ) (st : Option ℕ), (∀ s, st = some s → s < pos) →
    ∀ m ∈ scanPair a b c d l pos st, m.1 < m.2 ∧ m.2 ≤ pos + l.length := by
  intro n
  induction n with
  | zero =>
    intro l hl pos st hst m hm
    rw [List.length_eq_zero.mp (Nat.le_zero.mp hl)] at hm
    cases hm
  | succ n ihn =>
    intro l hl pos st hst m hm
    match l, hm with
    | [], hm => cases hm
    | [x], hm => cases hm
    | x :: y :: rest, hm =>
      have hrest : rest.length ≤ n := by
        simp only [List.length_cons] at hl
        omega
      have hyrest : (y :: rest).length ≤ n := by
        simp only [List.length_cons] at hl ⊢
        omega
      match st with
      | none =>
        rw [scanPair] at hm
        by_cases h : x = a ∧ y = b
        · rw [if_pos h] at hm
          have := ihn rest hrest (pos + 2) (some pos)
            (by intro s hs; cases hs; omega) m hm
          simp only [List.length_cons]
          omega
        · rw [if_neg h] at hm
          have := ihn (y :: rest) hyrest (pos + 1) none
            (by intro s hs; cases hs) m hm
          simp only [List.length_cons] at this ⊢
          omega
      | some st0 =>
        rw [scanPair] at hm
        by_cases h : x = c ∧ y = d
        · rw [if_pos h] at hm
          rcases List.mem_cons.mp hm with rfl | hm
          · have := hst st0 rfl
            simp only [List.length_cons]
            omega
          · have := ihn rest hrest (pos + 2) none
              (by intro s hs; cases hs) m hm
            simp only [List.length_cons]
            omega
        · rw [if_neg h] at hm
          have := ihn (y :: rest) hyrest (pos + 1) (some st0)
            (by intro s hs; cases hs; exact Nat.lt_succ_of_lt (hst _ rfl)) m hm
          simp only [List.length_cons] at this ⊢
          omega

/-- C9: the three math patterns are applied independently, each matched
across newlines; each match yields one sample whose content is the literal
substring of the text at its `[start, stop)` offsets (with `start < stop ≤
length`); overlapping matches from different patterns are all retained; and
on "see $x^2$ here" the result is exactly one sample, content "$x^2$",
start 4, end 9. -/
theorem extract_math_expressions_spec :
    (extract_math_expressions "see $x^2$ here" =
      [{ content := "$x^2$", start := 4, stop := 9 }]) ∧
    (∀ (text : String) (m : MathSample), m ∈ extract_math_expressions text →
      m.content.data = slice text.data m.start m.stop ∧
        m.start < m.stop ∧ m.stop ≤ text.data.length) ∧
    ({ content := "$a\\(b$", start := 0, stop := 6 : MathSample }
        ∈ extract_math_expressions "$a\\(b$c\\)" ∧
      { content := "\\(b$c\\)", start := 2, stop := 9 : MathSample }
        ∈ extract_math_expressions "$a\\(b$c\\)") := by
  refine ⟨by decide, ?_, by decide, by decide⟩
  intro text m hm
  rw [extract_math_expressions] at hm
  rcases List.mem_append.mp hm with hm' | hm'
  case _ =>
    rcases List.mem_append.mp hm' with hm2 | hm2
    · rcases List.mem_map.mp hm2 with ⟨p, hp, rfl⟩
      have hb := scanDollar_bounds text.data 0 none (by intro s hs; cases hs) p hp
      exact ⟨rfl, hb.1, by simpa using hb.2⟩
    · rcases List.mem_map.mp hm2 with ⟨p, hp, rfl⟩
      have hb := scanPair_bounds '\\' '(' '\\' ')' text.data.length text.data
        le_rfl 0 none (by intro s hs; cases hs) p hp
      exact ⟨rfl, hb.1, by simpa using hb.2⟩
  case _ =>
    rcases List.mem_map.mp hm' with ⟨p, hp, rfl⟩
    have hb := scanPair_bounds '\\' '[' '\\' ']' text.data.length text.data
      le_rfl 0 none (by intro s hs; cases hs) p hp
    exact ⟨rfl, hb.1, by simpa using hb.2⟩

/-- Witness for C9: the general substring/bounds part applied at the
concrete text "see $x^2$ here" and its single sample. -/
theorem extract_math_expressions_spec_witness :
    ({ content := "$x^2$", start := 4, stop := 9 : MathSample }
        ∈ extract_math_expressions "see $x^2$ here") ∧
    ("$x^2$".data = slice "see $x^2$ here".data 4 9 ∧
      4 < 9 ∧ 9 ≤ "see $x^2$ here".data.length) := by
  have hmem : { content := "$x^2$", start := 4, stop := 9 : MathSample }
      ∈ extract_math_expressions "see $x^2$ here" := by decide
  exact ⟨hmem,
    extract_math_expressions_spec.2.1 "see $x^2$ here" _ hmem⟩

theorem pypdf2_shape (env : ExtractEnv) (path : String) (r : ExtractionResult)
    (h : extract_from_pdf_with_pypdf2 env path = .ok r) :
    r.text.isSome ∧ r.error = none := by
  unfold extract_from_pdf_with_pypdf2 at h
  cases hp : env.pypdf2 path <;> rw [hp] at h
  case error e => exact Except.noConfusion h
  case ok d =>
    rw [← Except.ok.inj h]
    exact ⟨rfl, rfl⟩

theorem pdfminer_shape (env : ExtractEnv) (path : String) (r : ExtractionResult)
    (h : extract_from_pdf_with_pdfminer env path = .ok r) :
    r.text.isSome ∧ r.error = none := by
  unfold extract_from_pdf_with_pdfminer at h
  cases hp : env.pdfminer path <;> rw [hp] at h
  case error e => exact Except.noConfusion h
  case ok d =>
    rw [← Except.ok.inj h]
    exact ⟨rfl, rfl⟩

theorem pdf_shape (env : ExtractEnv) (path : String) (r : ExtractionResult)
    (h : extract_from_pdf env path = .ok r) :
    r.text.isSome ∧ r.error = none := by
  unfold extract_from_pdf at h
  cases hp : extract_from_pdf_with_pypdf2 env path <;> rw [hp] at h
  case error e => exact pdfminer_shape env path r h
  case ok r0 =>
    cases h
    exact pypdf2_shape env path r hp

theorem docx_shape (env : ExtractEnv) (path : String) (r : ExtractionResult)
    (h : extract_from_docx env path = .ok r) :
    r.text.isSome ∧ r.error = none := by
  unfold extract_from_docx at h
  cases hp : env.docxOpen path <;> rw [hp] at h
  case error e => exact Except.noConfusion h
  case ok d =>
    rw [← Except.ok.inj h]
    exact ⟨rfl, rfl⟩

theorem doc_shape (env : ExtractEnv) (path : String) (r : ExtractionResult)
    (h : extract_from_doc env path = .ok r) :
    (r.text.isSome ∧ r.error = none) ∨ (r.text = none ∧ r.error.isSome) := by
  unfold extract_from_doc at h
  cases hp : env.textract path <;> rw [hp] at h <;> cases h
  case error e => right; exact ⟨rfl, rfl⟩
  case ok t => left; exact ⟨rfl, rfl⟩

theorem txt_shape (env : ExtractEnv) (path : String) (r : ExtractionResult)
    (h : extract_from_txt env path = .ok r) :
    (r.text.isSome ∧ r.error = none) ∨ (r.text = none ∧ r.error.isSome) := by
  unfold extract_from_txt at h
  cases hp : env.readUtf8 path <;> rw [hp] at h
  case ok t =>
    cases h
    left; exact ⟨rfl, rfl⟩
  case error te =>
    cases te
    case unicodeDecode =>
      cases hl : env.readLatin1 path <;> rw [hl] at h <;> cases h
      case error e => right; exact ⟨rfl, rfl⟩
      case ok t => left; exact ⟨rfl, rfl⟩
    case other e => cases h

theorem textract_shape (env : ExtractEnv) (path : String) :
    ((extract_with_textract env path).text.isSome ∧
      (extract_with_textract env path).error = none) ∨
    ((extract_with_textract env path).text = none ∧
      (extract_with_textract env path).error.isSome) := by
  unfold extract_with_textract
  cases hp : env.textract path
  case error e => right; exact ⟨rfl, rfl⟩
  case ok t => left; exact ⟨rfl, rfl⟩

theorem extractByExt_ok_shape (env : ExtractEnv) (path ext : String)
    (r : ExtractionResult) (h : extractByExt env path ext = .ok r) :
    (r.text.isSome ∧ r.error = none) ∨ (r.text = none ∧ r.error.isSome) := by
  unfold extractByExt at h
  by_cases h1 : ext = ".pdf"
  · rw [if_pos h1] at h
    exact Or.inl (pdf_shape env path r h)
  · rw [if_neg h1] at h
    by_cases h2 : ext = ".docx"
    · rw [if_pos h2] at h
      exact Or.inl (docx_shape env path r h)
    · rw [if_neg h2] at h
      by_cases h3 : ext = ".doc"
      · rw [if_pos h3] at h
        exact doc_shape env path r h
      · rw [if_neg h3] at h
        exact txt_shape env path r h

theorem shape_iff (r : ExtractionResult)
    (h : (r.text.isSome ∧ r.error = none) ∨ (r.text = none ∧ r.error.isSome)) :
    (r.text.isSome ↔ r.error = none) := by
  rcases h with ⟨h1, h2⟩ | ⟨h1, h2⟩
  · simp [h1, h2]
  · rw [h1]
    simp only [Option.isSome_none, Bool.false_eq_true, false_iff]
    intro hc
    rw [hc] at h2
    simp at h2

/-- Shared structural fact: every result of `extract` has a populated-key
`text` xor a populated-key `error` (key presence, not value non-emptiness). -/
theorem extract_text_iff_error (env : ExtractEnv) (path : String) :
    ((extract env path).text.isSome ↔ (extract env path).error = none) := by
  unfold extract
  by_cases hex : env.pathExists path
  · rw [if_neg (by simp [hex])]
    by_cases hsupp : env.splitextExt (pyLower path) ∈ [".pdf", ".docx", ".doc", ".txt"]
    · rw [if_pos hsupp]
      cases hb : extractByExt env path (env.splitextExt (pyLower path)) with
      | error e => simp [emptyResult]
      | ok r => exact shape_iff r (extractByExt_ok_shape env path _ r hb)
    · rw [if_neg hsupp]
      exact shape_iff _ (textract_shape env path)
  · rw [if_pos (by simp [hex])]
    simp [emptyResult]

theorem ebind_ok {α β : Type} (a : α) (f : α → Except String β) :
    ((Except.ok a : Except String α) >>= f) = f a := rfl

theorem ebind_err {α β : Type} (e : String) (f : α → Except String β) :
    ((Except.error e : Except String α) >>= f) = Except.error e := rfl

theorem epure {α : Type} (a : α) : (pure a : Except String α) = Except.ok a := rfl

set_option maxHeartbeats 2000000 in
/-- Shared: field structure of every normally-returned analysis result. -/
theorem analyze_ok_fields (env : AnalyzeEnv) (text : String)
    (opts : Option AnalysisOptions) (r : AnalysisResult)
    (hne : ¬ pyStrip text = "") (h : analyze env text opts = .ok r) :
    r.error = none ∧ r.text_length = some text.length ∧
    r.word_count = some (env.wordTok text).length ∧
    r.sentence_count = some (env.sentTok text).length ∧
    r.keywords.isSome = (resolvedOptions opts).keywords.getD true ∧
    r.entities.isSome = (resolvedOptions opts).entities.getD true ∧
    r.summary.isSome = (resolvedOptions opts).summary.getD true ∧
    r.topics.isSome = (resolvedOptions opts).topics.getD true ∧
    r.sentiment.isSome = (resolvedOptions opts).sentiment.getD false ∧
    r.readability.isSome = (resolvedOptions opts).readability.getD true := by
  unfold analyze at h
  rw [if_neg hne] at h
  by_cases h1 : (resolvedOptions opts).keywords.getD true = true
  · rw [if_pos h1] at h
    cases hk : env.keywords text with
    | error e =>
      rw [hk] at h
      simp only [ebind_err] at h
      exact Except.noConfusion h
    | ok kw =>
      rw [hk] at h
      simp only [ebind_ok, epure] at h
      by_cases h2 : (resolvedOptions opts).entities.getD true = true
      · rw [if_pos h2] at h
        cases he : env.entities text with
        | error e =>
          rw [he] at h
          simp only [ebind_err] at h
          exact Except.noConfusion h
        | ok en =>
          rw [he] at h
          simp only [ebind_ok, epure] at h
          rw [← Except.ok.inj h, h1, h2]
          split_ifs <;> simp_all [emptyAnalysis]
      · rw [if_neg h2] at h
        rw [← Except.ok.inj h, h1, Bool.eq_false_iff.mpr h2]
        split_ifs <;> simp_all [emptyAnalysis]
  · rw [if_neg h1] at h
    simp only [epure, ebind_ok] at h
    by_cases h2 : (resolvedOptions opts).entities.getD true = true
    · rw [if_pos h2] at h
      cases he : env.entities text with
      | error e =>
        rw [he] at h
        simp only [ebind_err] at h
        exact Except.noConfusion h
      | ok en =>
        rw [he] at h
        simp only [ebind_ok, epure] at h
        rw [← Except.ok.inj h, Bool.eq_false_iff.mpr h1, h2]
        split_ifs <;> simp_all [emptyAnalysis]
    · rw [if_neg h2] at h
      rw [← Except.ok.inj h, Bool.eq_false_iff.mpr h1, Bool.eq_false_iff.mpr h2]
      split_ifs <;> simp_all [emptyAnalysis]

/-- C3: `analyze` on empty/whitespace-only text returns an error result (no
analysis fields); on other text every normally-returned result carries
exactly the three base fields plus each optional section iff its (resolved)
option is enabled; with all six options explicitly false the result is
exactly the three base fields. -/
theorem analyze_spec (env : AnalyzeEnv) (text : String)
    (opts : Option AnalysisOptions) :
    (pyStrip text = "" → analyze env text opts =
      .ok { emptyAnalysis with error := some "Empty text provided for analysis" }) ∧
    (pyStrip text ≠ "" → ∀ r, analyze env text opts = .ok r →
      r.error = none ∧ r.text_length = some text.length ∧
      r.word_count = some (env.wordTok text).length ∧
      r.sentence_count = some (env.sentTok text).length ∧
      r.keywords.isSome = (resolvedOptions opts).keywords.getD true ∧
      r.entities.isSome = (resolvedOptions opts).entities.getD true ∧
      r.summary.isSome = (resolvedOptions opts).summary.getD true ∧
      r.topics.isSome = (resolvedOptions opts).topics.getD true ∧
      r.sentiment.isSome = (resolvedOptions opts).sentiment.getD false ∧
      r.readability.isSome = (resolvedOptions opts).readability.getD true) ∧
    (pyStrip text ≠ "" → analyze env text (some allFalseOptions) =
      .ok { emptyAnalysis with
        text_length := some text.length,
        word_count := some (env.wordTok text).length,
        sentence_count := some (env.sentTok text).length }) := by
  refine ⟨?_, ?_, ?_⟩
  · intro hz
    unfold analyze
    rw [if_pos hz]
  · intro hne r h
    exact analyze_ok_fields env text opts r hne h
  · intro hne
    unfold analyze
    rw [if_neg hne]
    rfl

/-- Witness for C3: a trivial oracle environment, whitespace-only text for
the error branch, and "hello" with all options false for the base-keys
branch; the field characterization applied at the base result. -/
theorem analyze_spec_witness :
    analyze demoAnalyzeEnv " " none =
      .ok { emptyAnalysis with error := some "Empty text provided for analysis" } ∧
    analyze demoAnalyzeEnv "hello" (some allFalseOptions) =
      .ok { emptyAnalysis with
        text_length := some 5, word_count := some 1, sentence_count := some 1 } ∧
    ({ emptyAnalysis with
        text_length := some 5, word_count := some 1,
        sentence_count := some 1 } : AnalysisResult).keywords.isSome =
      (resolvedOptions (some allFalseOptions)).keywords.getD true := by
  refine ⟨(analyze_spec demoAnalyzeEnv " " none).1 (by decide), ?_, ?_⟩
  · have h := (analyze_spec demoAnalyzeEnv "hello" (some allFalseOptions)).2.2
      (by decide)
    simpa [demoAnalyzeEnv] using h
  · have h2 := (analyze_spec demoAnalyzeEnv
        "hello" (some allFalseOptions)).2.1 (by decide) _
        ((analyze_spec demoAnalyzeEnv "hello" (some allFalseOptions)).2.2 (by decide))
    simpa using h2.2.2.2.2.1

/-- C10: with `options` None, or with keys absent from the mapping, the
defaults are keywords/entities/summary/topics/readability enabled and
sentiment disabled; a default call computes every optional section except
sentiment. -/
theorem analyze_defaults_spec (env : AnalyzeEnv) (text : String) :
    analyze env text none = analyze env text (some emptyOptions) ∧
    (pyStrip text ≠ "" → ∀ r, analyze env text none = .ok r →
      r.keywords.isSome ∧ r.entities.isSome ∧ r.summary.isSome ∧
      r.topics.isSome ∧ r.readability.isSome ∧ r.sentiment = none) := by
  constructor
  · rfl
  · intro hne r h
    have hf := analyze_ok_fields env text none r hne h
    refine ⟨?_, ?_, ?_, ?_, ?_, ?_⟩
    · simpa [resolvedOptions, defaultOptions] using hf.2.2.2.2.1
    · simpa [resolvedOptions, defaultOptions] using hf.2.2.2.2.2.1
    · simpa [resolvedOptions, defaultOptions] using hf.2.2.2.2.2.2.1
    · simpa [resolvedOptions, defaultOptions] using hf.2.2.2.2.2.2.2.1
    · simpa [resolvedOptions, defaultOptions] using hf.2.2.2.2.2.2.2.2.2
    · have hs := hf.2.2.2.2.2.2.2.2.1
      simp only [resolvedOptions, defaultOptions, Option.getD_some] at hs
      exact Option.not_isSome_iff_eq_none.mp (by simp [hs])

/-- Witness for C10: on "hi" with `demoAnalyzeEnv`, a None-options call
equals an empty-dict-options call, returns `demoDefaultResult`, and computes
every optional section except sentiment. -/
theorem analyze_defaults_spec_witness :
    analyze demoAnalyzeEnv "hi" none = analyze demoAnalyzeEnv "hi" (some emptyOptions) ∧
    analyze demoAnalyzeEnv "hi" none = .ok demoDefaultResult ∧
    demoDefaultResult.keywords.isSome ∧ demoDefaultResult.entities.isSome ∧
    demoDefaultResult.summary.isSome ∧ demoDefaultResult.topics.isSome ∧
    demoDefaultResult.readability.isSome ∧ demoDefaultResult.sentiment = none := by
  have hrd : calculate_readability ["a."] ["a"] =
      [("flesch_reading_ease", 121.22), ("flesch_kincaid_grade", -3.4),
       ("complex_word_ratio", 0), ("avg_words_per_sentence", 1),
       ("avg_syllables_per_word", 1)] := by
    have hf : List.filter hasAlpha ["a"] = ["a"] := by decide
    have hs : wordSyllables "a" = 1 := by decide
    unfold calculate_readability
    rw [if_neg (by decide), hf]
    norm_num [hs, pyRound, roundHalfEven, Int.floor_neg]
  have h : analyze demoAnalyzeEnv "hi" none = .ok demoDefaultResult := by
    unfold analyze
    rw [if_neg (by decide)]
    simp only [resolvedOptions, defaultOptions, Option.getD_some, if_true,
      demoAnalyzeEnv, ebind_ok, ebind_err, epure]
    norm_num [demoAnalyzeEnv, hrd, emptyAnalysis, demoDefaultResult,
      show "hi".length = 2 from rfl]
  have hthm := analyze_defaults_spec demoAnalyzeEnv "hi"
  have hf := hthm.2 (by decide) demoDefaultResult h
  exact ⟨hthm.1, h, hf.1, hf.2.1, hf.2.2.1, hf.2.2.2.1, hf.2.2.2.2.1, hf.2.2.2.2.2⟩

/-- C2 counterexample: an empty (0-byte) `.txt` file decodes as the empty
string, so the result has `text` present but EMPTY, and no `error`: neither a
populated `text` nor a populated `error`. -/
theorem extract_populated_counterexample :
    (extract failEnv "empty.txt").text = some "" ∧
    (extract failEnv "empty.txt").error = none ∧
    ¬ (populatedText (extract failEnv "empty.txt") ∨
        populatedError (extract failEnv "empty.txt")) := by
  have h1 : (extract failEnv "empty.txt").text = some "" := by decide
  have h2 : (extract failEnv "empty.txt").error = none := by decide
  refine ⟨h1, h2, ?_⟩
  rintro (⟨s, hs, hne⟩ | ⟨s, hs, hne⟩)
  · rw [h1] at hs
    exact hne (Option.some.inj hs).symm
  · rw [h2] at hs
    exact Option.noConfusion hs

/-- C2 amended: every result of `extract` carries exactly one of the `text`
key or the `error` key (and never both), but the `text` value may be the
empty string (e.g. an empty file), so the keys, not their non-emptiness, are
the invariant. -/
theorem extract_result_key_invariant (env : ExtractEnv) (path : String) :
    ((extract env path).text.isSome ↔ (extract env path).error = none) ∧
    ¬ ((extract env path).text.isSome ∧ (extract env path).error.isSome) := by
  have h := extract_text_iff_error env path
  refine ⟨h, ?_⟩
  rintro ⟨h1, h2⟩
  rw [h.mp h1] at h2
  simp at h2

/-- C1 counterexample: on a PDF path whose image stage fails,
`extract_with_images` does NOT return the text-extraction result with an
empty image list — the image-stage exception escapes the call (the claim says
it degrades to an empty image list). -/
theorem extract_with_images_counterexample :
    (extract c1Env "doc.pdf").text = some "Hello" ∧
    extract_images_from_pdf c1Env "doc.pdf" = .error "fitz cannot open" ∧
    extract_with_images c1Env "doc.pdf" = .error "fitz cannot open" := by
  refine ⟨by decide, rfl, ?_⟩
  have himg : extract_images_from_pdf c1Env "doc.pdf" = .error "fitz cannot open" := rfl
  unfold extract_with_images
  simp only []
  rw [if_pos (show c1Env.splitextExt (pyLower "doc.pdf") = ".pdf" from rfl), himg]
  rfl

/-- C1 amended: `extract` itself never lets an exception escape — every
result carries a `text` or an `error` key; but `extract_with_images`
propagates any image-stage exception unchanged (for both .pdf and .docx
paths), and `analyze` propagates an exception raised by its unguarded
keywords stage, and likewise one raised by its unguarded entities stage (the
entities stage runs after keywords, so its error escapes whenever the
keywords stage is disabled or succeeds); `analyze` succeeds whenever both
unguarded stages are disabled or succeed — summary, topics, sentiment and
readability never propagate. -/
theorem error_propagation_spec :
    (∀ (env : ExtractEnv) (path : String),
      (extract env path).text.isSome ∨ (extract env path).error.isSome) ∧
    (∀ (env : ExtractEnv) (path e : String),
      env.splitextExt (pyLower path) = ".pdf" →
      extract_images_from_pdf env path = .error e →
      extract_with_images env path = .error e) ∧
    (∀ (env : ExtractEnv) (path e : String),
      env.splitextExt (pyLower path) = ".docx" →
      extract_images_from_docx env path = .error e →
      extract_with_images env path = .error e) ∧
    (∀ (env : AnalyzeEnv) (text : String) (opts : Option AnalysisOptions)
        (e : String), pyStrip text ≠ "" →
      (resolvedOptions opts).keywords.getD true = true →
      env.keywords text = .error e →
      analyze env text opts = .error e) ∧
    (∀ (env : AnalyzeEnv) (text : String) (opts : Option AnalysisOptions)
        (e : String), pyStrip text ≠ "" →
      ((resolvedOptions opts).keywords.getD true = true →
        ∃ kw, env.keywords text = .ok kw) →
      (resolvedOptions opts).entities.getD true = true →
      env.entities text = .error e →
      analyze env text opts = .error e) ∧
    (∀ (env : AnalyzeEnv) (text : String) (opts : Option AnalysisOptions),
      ((resolvedOptions opts).keywords.getD true = true →
        ∃ kw, env.keywords text = .ok kw) →
      ((resolvedOptions opts).entities.getD true = true →
        ∃ en, env.entities text = .ok en) →
      ∃ r, analyze env text opts = .ok r) := by
  refine ⟨?_, ?_, ?_, ?_, ?_, ?_⟩
  · intro env path
    by_cases h : (extract env path).text.isSome
    · exact Or.inl h
    · right
      rcases hcase : (extract env path).error with _ | e
      · exact absurd ((extract_text_iff_error env path).mpr hcase) h
      · simp
  · intro env path e hext himg
    unfold extract_with_images
    simp only []
    rw [if_pos hext, himg]
    rfl
  · intro env path e hext himg
    unfold extract_with_images
    simp only []
    rw [if_neg (by rw [hext]; decide), if_pos hext, himg]
    rfl
  · intro env text opts e hne hk henv
    unfold analyze
    rw [if_neg hne, if_pos hk, henv]
    rfl
  · intro env text opts e hne hk h2 henv
    unfold analyze
    rw [if_neg hne]
    by_cases h1 : (resolvedOptions opts).keywords.getD true = true
    · obtain ⟨kw, hkw⟩ := hk h1
      rw [if_pos h1, hkw]
      simp only [ebind_ok, epure]
      rw [if_pos h2, henv]
      exact ebind_err e _
    · rw [if_neg h1]
      simp only [epure, ebind_ok]
      rw [if_pos h2, henv]
      exact ebind_err e _
  · intro env text opts hk he
    by_cases hz : pyStrip text = ""
    · exact ⟨_, by unfold analyze; rw [if_pos hz]⟩
    · unfold analyze
      rw [if_neg hz]
      by_cases h1 : (resolvedOptions opts).keywords.getD true = true
      · obtain ⟨kw, hkw⟩ := hk h1
        rw [if_pos h1, hkw]
        simp only [ebind_ok, epure]
        by_cases h2 : (resolvedOptions opts).entities.getD true = true
        · obtain ⟨en, hen⟩ := he h2
          rw [if_pos h2, hen]
          simp only [ebind_ok, epure]
          exact ⟨_, rfl⟩
        · rw [if_neg h2]
          exact ⟨_, rfl⟩
      · rw [if_neg h1]
        simp only [epure, ebind_ok]
        by_cases h2 : (resolvedOptions opts).entities.getD true = true
        · obtain ⟨en, hen⟩ := he h2
          rw [if_pos h2, hen]
          simp only [ebind_ok, epure]
          exact ⟨_, rfl⟩
        · rw [if_neg h2]
          exact ⟨_, rfl⟩

/-- Witness for C1 at concrete inputs: the all-fail text environment, the
failing-PDF image environment, and the trivial analyzer environment with a
failing keywords oracle, a failing entities oracle, and all oracles
succeeding. -/
theorem error_propagation_spec_witness :
    ((extract failEnv "empty.txt").text.isSome ∨
      (extract failEnv "empty.txt").error.isSome) ∧
    extract_with_images c1Env "doc.pdf" = .error "fitz cannot open" ∧
    analyze { demoAnalyzeEnv with keywords := fun _ => .error "empty vocabulary" }
      "hello" none = .error "empty vocabulary" ∧
    analyze { demoAnalyzeEnv with entities := fun _ => .error "spacy failed" }
      "hello" none = .error "spacy failed" ∧
    (∃ r, analyze demoAnalyzeEnv "hello" none = .ok r) := by
  refine ⟨error_propagation_spec.1 failEnv "empty.txt", ?_, ?_, ?_, ?_⟩
  · exact error_propagation_spec.2.1 c1Env "doc.pdf" "fitz cannot open" rfl rfl
  · exact error_propagation_spec.2.2.2.1 _ "hello" none "empty vocabulary"
      (by decide) (by decide) rfl
  · exact error_propagation_spec.2.2.2.2.1 _ "hello" none "spacy failed"
      (by decide) (fun _ => ⟨[], rfl⟩) (by decide) rfl
  · exact error_propagation_spec.2.2.2.2.2 demoAnalyzeEnv "hello" none
      (fun _ => ⟨[], rfl⟩) (fun _ => ⟨[], rfl⟩)

end DocProc
